import Mathlib

/-!
Shallow embedding of the ordering / queue-consistency core of the
Divebar-Jukebox backend (`backend/app/services/{collection,queue,playback,track}_service.py`
together with the row shapes of `backend/app/models/*.py`).

Modelling conventions:
* database ids (UUID strings in the source) are opaque identifiers, modelled as `Nat`;
* SQL `Integer` columns are `Int`, nullable columns are `Option _`;
* a table is a `List` of rows in insertion order; `query(...).first()` is `List.find?`,
  `query(...).order_by(k).all()` is a stable sort (`sortBy`) on the key;
* mutating the single object returned by `.first()` is `updateFirst`;
* each service method takes the database value and returns the committed database
  (plus its Python return value); a raised `ValueError` is `Except.error`.
-/

/-- Row of the `albums` table (`backend/app/models/album.py`; the fields the
embedded services read). -/
structure Album where
  id : Nat
  title : String
  artist : String
  cover_art_path : Option String
  year : Option Int
  total_tracks : Int
  has_multi_disc : Bool
  archived : Bool
deriving DecidableEq

/-- Row of the `tracks` table (`backend/app/models/track.py` plus the `archived`
and `is_favorite` columns added by the migrations).  The two ReplayGain entries
of the `extra_metadata` JSON column are modelled directly as optional values;
`get_next_transition` reads nothing else from that column, and an absent or
empty dict behaves exactly like both entries missing. -/
structure Track where
  id : Nat
  album_id : Nat
  disc_number : Int
  track_number : Int
  title : String
  artist : String
  duration_ms : Int
  enabled : Bool
  archived : Bool
  is_favorite : Bool
  replaygain_track_gain : Option Int
  replaygain_album_gain : Option Int
deriving DecidableEq

/-- One entry of a collection's `sections` JSON list, as validated by
`CollectionService.update_collection_sections`.  Each Python dict key that the
validator reads through `.get` is an optional field. -/
structure SectionInput where
  order : Option Int
  name : Option String
  color : Option String
  start_slot : Option Int
  end_slot : Option Int
deriving DecidableEq

/-- Row of the `collections` table (`backend/app/models/collection.py`; the
fields the embedded services read). -/
structure Collection where
  id : Nat
  slug : String
  name : String
  is_active : Bool
  sections_enabled : Bool
  sections : Option (List SectionInput)
deriving DecidableEq

/-- Row of the `collection_albums` membership table
(`backend/app/models/collection_album.py`). -/
structure CollectionAlbum where
  id : Nat
  collection_id : Nat
  album_id : Nat
  display_number : Int
  sort_order : Int
  enabled_track_ids : List Nat
deriving DecidableEq

/-- `QueueStatus` enum from `backend/app/models/queue.py`. -/
inductive QueueStatus where
  | pending
  | playing
  | played
deriving DecidableEq

/-- Row of the `queue` table (`backend/app/models/queue.py`). -/
structure QueueItem where
  id : Nat
  collection_id : Nat
  track_id : Nat
  position : Int
  status : QueueStatus
  played_at : Option Nat
deriving DecidableEq

/-- Row of the `playback_state` table (`backend/app/models/playback_state.py`). -/
structure PlaybackState where
  id : Nat
  collection_id : Nat
  current_track_id : Option Nat
  is_playing : Bool
  current_position_ms : Int
  volume : Int
deriving DecidableEq

/-- The whole database, one list of rows per table. -/
structure DB where
  collections : List Collection
  albums : List Album
  tracks : List Track
  collection_albums : List CollectionAlbum
  queue : List QueueItem
  playback_states : List PlaybackState
deriving DecidableEq

/-- Stable sort by a Bool comparison; models SQL `ORDER BY` with the given key
comparison (`sorted(...)` in Python). -/
def sortBy (le : α → α → Bool) (l : List α) : List α :=
  List.insertionSort (fun a b => le a b = true) l

/-- Apply `f` to the first element satisfying `p`, leave the rest unchanged.
This models fetching one row with `.first()` and mutating that object. -/
def updateFirst (p : α → Bool) (f : α → α) : List α → List α
  | [] => []
  | x :: xs => if p x then f x :: xs else x :: updateFirst p f xs

/-! ## TrackService (`track_service.py`) -/

/-- `TrackService.get_track_by_id`. -/
def get_track_by_id (db : DB) (track_id : Nat) : Option Track :=
  db.tracks.find? (fun t => t.id == track_id)

/-- Comparison used by `order_by(Track.disc_number, Track.track_number)`. -/
def trackOrderLe (a b : Track) : Bool :=
  decide (a.disc_number < b.disc_number) ||
    (a.disc_number == b.disc_number && decide (a.track_number ≤ b.track_number))

/-- `TrackService.get_tracks_by_album`: tracks of the album, optionally
restricted to enabled and non-archived ones, ordered by
`(disc_number, track_number)`. -/
def get_tracks_by_album (db : DB) (album_id : Nat) (enabled_only : Bool := true) : List Track :=
  sortBy trackOrderLe (db.tracks.filter (fun t =>
    t.album_id == album_id && (!enabled_only || (t.enabled && !t.archived))))

/-! ## QueueService (`queue_service.py`) -/

/-- `status ∈ {PENDING, PLAYING}`, the filter used throughout the queue service. -/
def isPP (s : QueueStatus) : Bool :=
  s == QueueStatus.pending || s == QueueStatus.playing

/-- The `{pending, playing}` queue rows of one collection, in table order. -/
def ppItems (db : DB) (collection_id : Nat) : List QueueItem :=
  db.queue.filter (fun q => q.collection_id == collection_id && isPP q.status)

/-- `QueueService.add_to_queue`: dedup on `(collection, track)` among
pending/playing rows, else insert at `max(position) + 1` (0 when empty).
`new_id` stands for the fresh UUID the model generates. -/
def add_to_queue (db : DB) (collection_id track_id : Nat) (new_id : Nat) :
    DB × Option QueueItem :=
  match db.queue.find? (fun q =>
      q.collection_id == collection_id && q.track_id == track_id && isPP q.status) with
  | some _ => (db, none)
  | none =>
    let max_position := (((ppItems db collection_id).map (fun q => q.position)).max?).getD 0
    let item : QueueItem :=
      ⟨new_id, collection_id, track_id, max_position + 1, QueueStatus.pending, none⟩
    ({ db with queue := db.queue ++ [item] }, some item)

/-- Comparison used by `order_by(Queue.position)`. -/
def posLe (a b : QueueItem) : Bool := decide (a.position ≤ b.position)

/-- `QueueService.get_next_track`: pending row of the collection with the least
position. -/
def get_next_track (db : DB) (collection_id : Nat) : Option QueueItem :=
  (sortBy posLe (db.queue.filter (fun q =>
    q.collection_id == collection_id && q.status == QueueStatus.pending))).head?

/-- `QueueService.mark_playing`: set the row's status to `PLAYING`
(unconditionally) if the row exists. -/
def mark_playing (db : DB) (queue_id : Nat) : DB × Option QueueItem :=
  match db.queue.find? (fun q => q.id == queue_id) with
  | none => (db, none)
  | some _ =>
    let queue' := updateFirst (fun q => q.id == queue_id)
      (fun q => { q with status := QueueStatus.playing }) db.queue
    ({ db with queue := queue' }, queue'.find? (fun q => q.id == queue_id))

/-- `QueueService.mark_played`: set the row's status to `PLAYED` and stamp
`played_at` (with the current time `now`) if the row exists. -/
def mark_played (db : DB) (queue_id : Nat) (now : Nat) : DB × Option QueueItem :=
  match db.queue.find? (fun q => q.id == queue_id) with
  | none => (db, none)
  | some _ =>
    let queue' := updateFirst (fun q => q.id == queue_id)
      (fun q => { q with status := QueueStatus.played, played_at := some now }) db.queue
    ({ db with queue := queue' }, queue'.find? (fun q => q.id == queue_id))

/-- `QueueService._reorder_queue`: renumber the pending/playing rows of the
collection to `1..M` in order of their current positions (stable). -/
def reorder_queue_positions (db : DB) (collection_id : Nat) : DB :=
  let sortedIds := (sortBy posLe (ppItems db collection_id)).map (fun q => q.id)
  { db with queue := db.queue.map (fun q =>
      if q.collection_id == collection_id && isPP q.status then
        { q with position := (Int.ofNat (sortedIds.indexOf q.id + 1)) }
      else q) }

/-- `QueueService.remove_from_queue`: delete the row if present, then renumber
that collection's pending/playing rows. -/
def remove_from_queue (db : DB) (queue_id : Nat) : DB × Bool :=
  match db.queue.find? (fun q => q.id == queue_id) with
  | none => (db, false)
  | some item =>
    let db1 : DB := { db with queue := db.queue.eraseP (fun q => q.id == queue_id) }
    (reorder_queue_positions db1 item.collection_id, true)

/-- `QueueService.clear_queue`: delete the collection's rows (all of them, or
only pending/playing when `clear_played` is false); returns the count removed. -/
def clear_queue (db : DB) (collection_id : Nat) (clear_played : Bool) : DB × Nat :=
  let hit := fun (q : QueueItem) =>
    q.collection_id == collection_id && (clear_played || isPP q.status)
  (({ db with queue := db.queue.filter (fun q => !hit q) }), (db.queue.filter hit).length)

/-- `QueueService.reorder_queue`: an empty list succeeds with no change; the
listed ids must each be a distinct pending/playing row of the collection
(matched row count must equal list length), then positions are assigned by
1-based list index.  Nothing checks that every current row was listed. -/
def reorder_queue (db : DB) (collection_id : Nat) (ordered_queue_ids : List Nat) :
    DB × Bool :=
  if ordered_queue_ids.isEmpty then (db, true)
  else
    let items := db.queue.filter (fun q =>
      q.collection_id == collection_id && ordered_queue_ids.contains q.id && isPP q.status)
    if items.length != ordered_queue_ids.length then (db, false)
    else
      ({ db with queue := db.queue.map (fun q =>
          if q.collection_id == collection_id && ordered_queue_ids.contains q.id &&
              isPP q.status then
            { q with position := (Int.ofNat (ordered_queue_ids.indexOf q.id + 1)) }
          else q) }, true)

/-! ## CollectionService (`collection_service.py`) -/

/-- Comparison used by `order_by(CollectionAlbum.sort_order, CollectionAlbum.id)`. -/
def caOrderLe (a b : CollectionAlbum) : Bool :=
  decide (a.sort_order < b.sort_order) ||
    (a.sort_order == b.sort_order && decide (a.id ≤ b.id))

/-- Strict version of `caOrderLe`: `(sort_order, id)` lexicographically smaller. -/
def caOrderLt (a b : CollectionAlbum) : Bool :=
  decide (a.sort_order < b.sort_order) ||
    (a.sort_order == b.sort_order && decide (a.id < b.id))

/-- The membership rows of one collection, in table order. -/
def membersOf (db : DB) (collection_id : Nat) : List CollectionAlbum :=
  db.collection_albums.filter (fun ca => ca.collection_id == collection_id)

/-- `CollectionService.recalculate_display_numbers`: order the collection's
membership rows by `(sort_order, id)` and assign `display_number = 1..N` in
that order. -/
def recalculate_display_numbers (db : DB) (collection_id : Nat) : DB :=
  let sortedIds := (sortBy caOrderLe (membersOf db collection_id)).map (fun ca => ca.id)
  { db with collection_albums := db.collection_albums.map (fun ca =>
      if ca.collection_id == collection_id then
        { ca with display_number := (Int.ofNat (sortedIds.indexOf ca.id + 1)) }
      else ca) }

/-- `CollectionService.add_album_to_collection`: idempotent on an existing
membership; fails (returns `none`) when the album does not exist — the
collection's own existence is never looked up; otherwise inserts a membership
with all of the album's current tracks enabled and
`sort_order = given value or (membership count + 1)`, then recomputes display
numbers.  `new_id` stands for the fresh UUID. -/
def add_album_to_collection (db : DB) (collection_id album_id : Nat)
    (sort_order : Option Int) (new_id : Nat) : DB × Option CollectionAlbum :=
  match db.collection_albums.find? (fun ca =>
      ca.collection_id == collection_id && ca.album_id == album_id) with
  | some existing => (db, some existing)
  | none =>
    match db.albums.find? (fun a => a.id == album_id) with
    | none => (db, none)
    | some _ =>
      let track_ids := (db.tracks.filter (fun t => t.album_id == album_id)).map
        (fun t => t.id)
      let max_order := db.collection_albums.countP
        (fun ca => ca.collection_id == collection_id)
      let so := sort_order.getD (Int.ofNat max_order + 1)
      let ca : CollectionAlbum := ⟨new_id, collection_id, album_id, 0, so, track_ids⟩
      let db1 : DB := { db with collection_albums := db.collection_albums ++ [ca] }
      let db2 := recalculate_display_numbers db1 collection_id
      (db2, db2.collection_albums.find? (fun cb => cb.id == new_id))

/-- `CollectionService.remove_album_from_collection`: delete the membership if
present, then recompute display numbers. -/
def remove_album_from_collection (db : DB) (collection_id album_id : Nat) : DB × Bool :=
  match db.collection_albums.find? (fun ca =>
      ca.collection_id == collection_id && ca.album_id == album_id) with
  | none => (db, false)
  | some _ =>
    let db1 : DB := { db with collection_albums := db.collection_albums.eraseP (fun ca =>
      ca.collection_id == collection_id && ca.album_id == album_id) }
    (recalculate_display_numbers db1 collection_id, true)

/-- `CollectionService.update_album_sort_order`: set `sort_order` on the
membership if present, then recompute display numbers. -/
def update_album_sort_order (db : DB) (collection_id album_id : Nat)
    (new_sort_order : Int) : DB × Bool :=
  match db.collection_albums.find? (fun ca =>
      ca.collection_id == collection_id && ca.album_id == album_id) with
  | none => (db, false)
  | some _ =>
    let cas' := updateFirst
      (fun ca => ca.collection_id == collection_id && ca.album_id == album_id)
      (fun ca => { ca with sort_order := new_sort_order }) db.collection_albums
    let db1 : DB := { db with collection_albums := cas' }
    (recalculate_display_numbers db1 collection_id, true)

/-- The assignment loop of `set_collection_album_order`: each listed membership
row of the collection gets `sort_order := 0-based list index` of its album. -/
def assignSortOrders (db : DB) (collection_id : Nat) (album_ids : List Nat) : DB :=
  { db with collection_albums := db.collection_albums.map (fun ca =>
      if ca.collection_id == collection_id && album_ids.contains ca.album_id then
        { ca with sort_order := (Int.ofNat (album_ids.indexOf ca.album_id)) }
      else ca) }

/-- `CollectionService.set_collection_album_order`: an empty list succeeds with
no change; the number of distinct membership rows of the collection whose
`album_id` is listed must equal the list length (so duplicates and unknown ids
fail with no change — omitted members are not detected), then
`sort_order := 0-based list index` is assigned to the listed rows and display
numbers are recomputed. -/
def set_collection_album_order (db : DB) (collection_id : Nat) (album_ids : List Nat) :
    DB × Bool :=
  if album_ids.isEmpty then (db, true)
  else
    let matched := db.collection_albums.filter (fun ca =>
      ca.collection_id == collection_id && album_ids.contains ca.album_id)
    if ((matched.map (fun ca => ca.album_id)).dedup).length != album_ids.length then
      (db, false)
    else
      (recalculate_display_numbers (assignSortOrders db collection_id album_ids)
        collection_id, true)

/-- Python's `str.strip()`. -/
def pyStrip (s : String) : String :=
  ⟨(s.data.dropWhile Char.isWhitespace).reverse.dropWhile Char.isWhitespace |>.reverse⟩

/-- The per-entry loop of `update_collection_sections`: for each entry (with
list index as the default `order`), the trimmed name and color must be
non-empty and the `order` values unique. -/
def sectionsBasicCheck : Nat → List Int → List SectionInput → Except String Unit
  | _, _, [] => Except.ok ()
  | i, seen, sec :: rest =>
    let ord := sec.order.getD (Int.ofNat i)
    let nm := pyStrip (sec.name.getD "")
    let col := pyStrip (sec.color.getD "")
    if nm == "" then Except.error "Section name is required"
    else if col == "" then Except.error "Section color is required"
    else if seen.contains ord then Except.error "Section order must be unique"
    else sectionsBasicCheck (i + 1) (ord :: seen) rest

/-- Comparison used by `sorted(sections, key=lambda s: s.get("order", 0))`. -/
def sectionOrderLe (a b : SectionInput) : Bool :=
  decide (a.order.getD 0 ≤ b.order.getD 0)

/-- The loop inside `has_ranges`: every entry carries a `start_slot`, and
every entry but the last also carries an `end_slot` (the Python loop returns
`False` at the first entry violating this, `True` otherwise). -/
def hasRangesAux : List SectionInput → Bool
  | [] => true
  | [s] => s.start_slot.isSome
  | s :: rest => s.start_slot.isSome && s.end_slot.isSome && hasRangesAux rest

/-- `has_ranges` helper of `update_collection_sections`: true only when, in
order of `order`, every entry has a `start_slot` and every non-last entry has
an `end_slot`; any partially-ranged list yields false. -/
def hasRanges (sections : List SectionInput) : Bool :=
  if sections.isEmpty then false
  else hasRangesAux (sortBy sectionOrderLe sections)

/-- The range-validation loop of `update_collection_sections`, run only when
`has_ranges` holds; `prev` is the previous entry of the order-sorted list. -/
def sectionsRangeCheck : Option SectionInput → List SectionInput → Except String Unit
  | _, [] => Except.ok ()
  | prev, sec :: rest => do
    match sec.start_slot with
    | none => Except.error "Section start_slot must be greater or equal 1"
    | some start => do
      if start < 1 then Except.error "Section start_slot must be greater or equal 1"
      else
        (if rest.isEmpty then
          match sec.end_slot with
          | none => Except.ok ()
          | some e =>
            if e < 1 then Except.error "Section end_slot must be greater or equal 1 when set"
            else if start > e then
              Except.error "Section start_slot must be at most end_slot when end_slot is set"
            else Except.ok ()
        else
          match sec.end_slot with
          | none => Except.error "Non-last section end_slot must be greater or equal 1"
          | some e =>
            if e < 1 then Except.error "Non-last section end_slot must be greater or equal 1"
            else if start > e then
              Except.error "Section start_slot must be at most end_slot"
            else Except.ok ())
        match prev with
        | none =>
          if start != 1 then Except.error "First section must start at slot 1"
          else sectionsRangeCheck (some sec) rest
        | some p =>
          match p.end_slot with
          | none => Except.error "Only the last section may have end_slot omitted"
          | some pe =>
            if start != pe + 1 then
              Except.error "Section ranges must be contiguous, no gaps"
            else sectionsRangeCheck (some sec) rest

/-- `CollectionService.update_collection_sections`: returns the unchanged
database when the collection is missing (Python returns `None`); when enabling,
requires 3-10 entries, runs the per-entry checks, and runs the range checks
only when `has_ranges` holds; then stores the given sections; when disabling,
clears them. -/
def update_collection_sections (db : DB) (collection_id : Nat) (sections_enabled : Bool)
    (sections : Option (List SectionInput)) : Except String DB :=
  match db.collections.find? (fun c => c.id == collection_id) with
  | none => Except.ok db
  | some _ =>
    if sections_enabled then
      match sections with
      | none => Except.error "When enabling sections, provide a list of 3-10 sections"
      | some secs =>
        if secs.isEmpty then
          Except.error "When enabling sections, provide a list of 3-10 sections"
        else if secs.length < 3 || secs.length > 10 then
          Except.error "Collection must have between 3 and 10 sections"
        else do
          sectionsBasicCheck 0 [] secs
          (if hasRanges secs then
            sectionsRangeCheck none (sortBy sectionOrderLe secs)
          else Except.ok ())
          let cols' := updateFirst (fun c => c.id == collection_id)
            (fun c => { c with sections := some secs, sections_enabled := true })
            db.collections
          Except.ok { db with collections := cols' }
    else
      let cols' := updateFirst (fun c => c.id == collection_id)
        (fun c => { c with sections := none, sections_enabled := false })
        db.collections
      Except.ok { db with collections := cols' }

/-- One entry of `get_collection_albums`' per-track projection. -/
structure TrackListEntry where
  id : Nat
  disc_number : Int
  track_number : Int
  title : String
  artist : String
  duration_ms : Int
  is_favorite : Bool
deriving DecidableEq

/-- One entry of the list `get_collection_albums` returns. -/
structure AlbumListEntry where
  id : Nat
  display_number : Int
  title : String
  artist : String
  cover_art_path : Option String
  year : Option Int
  total_tracks : Int
  has_multi_disc : Bool
  tracks : Option (List TrackListEntry)
deriving DecidableEq

/-- Comparison used by `order_by(CollectionAlbum.display_number)`. -/
def displayLe (a b : CollectionAlbum) : Bool :=
  decide (a.display_number ≤ b.display_number)

/-- `CollectionService.get_collection_albums`: membership rows of the
collection in `display_number` order, skipping rows whose album is missing or
archived, each carrying its stored `display_number`; with `include_tracks`,
the enabled, non-disabled tracks in `(disc_number, track_number)` order. -/
def get_collection_albums (db : DB) (collection_id : Nat)
    (include_tracks : Bool := false) : List AlbumListEntry :=
  (sortBy displayLe (membersOf db collection_id)).filterMap (fun ca =>
    match db.albums.find? (fun a => a.id == ca.album_id) with
    | none => none
    | some alb =>
      if alb.archived then none
      else
        some ⟨alb.id, ca.display_number, alb.title, alb.artist, alb.cover_art_path,
          alb.year, alb.total_tracks, alb.has_multi_disc,
          if include_tracks then
            some ((sortBy trackOrderLe (db.tracks.filter (fun t =>
                t.album_id == alb.id && ca.enabled_track_ids.contains t.id &&
                  t.enabled))).map (fun t =>
              ⟨t.id, t.disc_number, t.track_number, t.title, t.artist, t.duration_ms,
                t.is_favorite⟩))
          else none⟩)

/-! ## PlaybackService (`playback_service.py`) -/

/-- `PlaybackService.get_playback_state`. -/
def get_playback_state (db : DB) (collection_id : Nat) : Option PlaybackState :=
  db.playback_states.find? (fun s => s.collection_id == collection_id)

/-- `PlaybackService.get_or_create_playback_state`; `new_id` stands for the
fresh UUID used when a state row has to be created. -/
def get_or_create_playback_state (db : DB) (collection_id : Nat) (new_id : Nat) :
    DB × PlaybackState :=
  match get_playback_state db collection_id with
  | some st => (db, st)
  | none =>
    let st : PlaybackState := ⟨new_id, collection_id, none, false, 0, 70⟩
    ({ db with playback_states := db.playback_states ++ [st] }, st)

/-- `PlaybackService.play`: with a current track, only `is_playing` is set;
without one, the next pending queue item (if any) becomes current at position
0 and is marked playing; with an empty queue the state is returned unchanged. -/
def play (db : DB) (collection_id : Nat) (new_id : Nat) : DB × Option PlaybackState :=
  let dbSt := get_or_create_playback_state db collection_id new_id
  let db1 := dbSt.1
  let st := dbSt.2
  match st.current_track_id with
  | some _ =>
    let st' := { st with is_playing := true }
    let sts' := updateFirst (fun s => s.id == st.id)
      (fun s => { s with is_playing := true }) db1.playback_states
    ({ db1 with playback_states := sts' }, some st')
  | none =>
    match get_next_track db1 collection_id with
    | none => (db1, some st)
    | some nq =>
      let upd := fun (s : PlaybackState) =>
        { s with current_track_id := some nq.track_id, current_position_ms := 0,
                 is_playing := true }
      let st' := upd st
      let sts' := updateFirst (fun s => s.id == st.id) upd db1.playback_states
      let db2 : DB := { db1 with playback_states := sts' }
      ((mark_playing db2 nq.id).1, some st')

/-- `PlaybackService.get_next_transition`: the next pending track id, its
ReplayGain (track-level, else album-level), and whether to crossfade; the
crossfade is suppressed only on an uninterrupted same-album successor. -/
def get_next_transition (db : DB) (collection_id : Nat) :
    Option Nat × Option Int × Bool :=
  let state := get_playback_state db collection_id
  match get_next_track db collection_id with
  | none => (none, none, false)
  | some nq =>
    match get_track_by_id db nq.track_id with
    | none => (some nq.track_id, none, true)
    | some nt =>
      let rg : Option Int :=
        match nt.replaygain_track_gain with
        | some tg => some tg
        | none =>
          match nt.replaygain_album_gain with
          | some ag => some ag
          | none => none
      match state with
      | none => (some nq.track_id, rg, true)
      | some st =>
        match st.current_track_id with
        | none => (some nq.track_id, rg, true)
        | some ctid =>
          match get_track_by_id db ctid with
          | none => (some nq.track_id, rg, true)
          | some ct =>
            if ct.album_id != nt.album_id then (some nq.track_id, rg, true)
            else
              let album_tracks := get_tracks_by_album db ct.album_id
              match album_tracks.findIdx? (fun t => t.id == ct.id) with
              | none => (some nq.track_id, rg, true)
              | some ci =>
                match album_tracks.get? (ci + 1) with
                | none => (some nq.track_id, rg, true)
                | some t2 =>
                  if t2.id != nt.id then (some nq.track_id, rg, true)
                  else (some nq.track_id, rg, false)

/-! ## Generic facts about `sortBy` and positional renumbering

The two renumbering routines (`recalculate_display_numbers` and
`_reorder_queue`) share one shape: sort the relevant rows by a key, then give
each row `1 + its index` in the sorted list.  When no two rows share a key,
that index is the row's rank: the number of rows with strictly smaller key. -/

/-- Number of elements of `l` strictly below `a` (0-based rank of `a` once `l`
is sorted), for a strict comparison `lt`. -/
def rankOf (lt : α → α → Bool) (l : List α) (a : α) : Nat :=
  l.countP (fun b => lt b a)

/-- `sortBy` permutes its input. -/
theorem sortBy_perm (le : α → α → Bool) (l : List α) : (sortBy le l).Perm l :=
  List.perm_insertionSort _ l

/-- `sortBy` sorts, for a total and transitive comparison. -/
theorem sortBy_sorted (le : α → α → Bool)
    (htot : ∀ a b, (le a b || le b a) = true)
    (htrans : ∀ a b c, le a b = true → le b c = true → le a c = true)
    (l : List α) : (sortBy le l).Pairwise (fun a b => le a b = true) := by
  haveI : IsTotal α (fun a b => le a b = true) :=
    ⟨fun a b => by have h := htot a b; rw [Bool.or_eq_true] at h; exact h⟩
  haveI : IsTrans α (fun a b => le a b = true) := ⟨fun a b c => htrans a b c⟩
  exact List.sorted_insertionSort _ l

/-- On a list whose elements are pairwise strictly comparable, `sortBy`
produces a strictly sorted list. -/
theorem sortBy_pairwise_lt (le lt : α → α → Bool)
    (htot : ∀ a b, (le a b || le b a) = true)
    (htrans : ∀ a b c, le a b = true → le b c = true → le a c = true)
    (hlt : ∀ a b, lt a b = (le a b && !(le b a)))
    (l : List α) (hc : l.Pairwise (fun a b => lt a b = true ∨ lt b a = true)) :
    (sortBy le l).Pairwise (fun a b => lt a b = true) := by
  have hcmp : (sortBy le l).Pairwise (fun a b => lt a b = true ∨ lt b a = true) :=
    (List.Perm.pairwise_iff (fun h => h.symm) (sortBy_perm le l)).mpr hc
  refine ((sortBy_sorted le htot htrans l).and hcmp).imp ?_
  intro a b h
  rcases h with ⟨hab, hor⟩
  rcases hor with h | h
  · exact h
  · rw [hlt] at h
    rw [Bool.and_eq_true, Bool.not_eq_eq_eq_not, Bool.not_true] at h
    exact absurd hab (by simp [h.2])

/-- In a strictly sorted list, the number of elements strictly below the
element at index `i` is `i`. -/
theorem countP_lt_sorted (lt : α → α → Bool)
    (hirr : ∀ a, lt a a = false)
    (hasym : ∀ a b, lt a b = true → lt b a = false)
    (s : List α) (hs : s.Pairwise (fun a b => lt a b = true)) :
    ∀ (i : Nat) (h : i < s.length), s.countP (fun b => lt b (s.get ⟨i, h⟩)) = i := by
  induction s with
  | nil => intro i h; simp at h
  | cons x t ih =>
    intro i h
    have hx : ∀ b ∈ t, lt x b = true := (List.pairwise_cons.mp hs).1
    have ht : t.Pairwise (fun a b => lt a b = true) := (List.pairwise_cons.mp hs).2
    match i with
    | 0 =>
      have hz : t.countP (fun b => lt b x) = 0 :=
        List.countP_eq_zero.mpr (fun b hb => by simp [hasym x b (hx b hb)])
      simp [List.countP_cons, hz, hirr x]
    | i + 1 =>
      have hlen : i < t.length := by simpa using h
      have hmem : t.get ⟨i, hlen⟩ ∈ t := t.get_mem i hlen
      have hcount := ih ht i hlen
      have hxm : lt x (t.get ⟨i, hlen⟩) = true := hx _ hmem
      simp only [List.get_eq_getElem] at hcount hxm
      simp only [List.countP_cons, List.get_eq_getElem, List.getElem_cons_succ,
        hcount, hxm]
      simp

/-- A strict comparison derived from a total transitive `le` is irreflexive. -/
theorem strict_irrefl (le lt : α → α → Bool)
    (htot : ∀ a b, (le a b || le b a) = true)
    (hlt : ∀ a b, lt a b = (le a b && !(le b a))) (a : α) : lt a a = false := by
  have h := htot a a
  rw [Bool.or_self] at h
  simp [hlt, h]

/-- A strict comparison derived from `le` is asymmetric. -/
theorem strict_asymm (le lt : α → α → Bool)
    (hlt : ∀ a b, lt a b = (le a b && !(le b a))) (a b : α)
    (h : lt a b = true) : lt b a = false := by
  rw [hlt] at h ⊢
  rw [Bool.and_eq_true] at h
  simp [h.1]

/-- The element at 1-based position `indexOf (idOf a) + 1` of the sorted list
is `a` itself: on a list with pairwise distinct ids and pairwise strictly
comparable elements, looking an element's id up in the sorted id list yields
exactly that element's rank. -/
theorem indexOf_sortBy_eq_rankOf (le lt : α → α → Bool) (idOf : α → Nat)
    (htot : ∀ a b, (le a b || le b a) = true)
    (htrans : ∀ a b c, le a b = true → le b c = true → le a c = true)
    (hlt : ∀ a b, lt a b = (le a b && !(le b a)))
    (l : List α) (hc : l.Pairwise (fun a b => lt a b = true ∨ lt b a = true))
    (hids : (l.map idOf).Nodup) (a : α) (ha : a ∈ l) :
    ((sortBy le l).map idOf).indexOf (idOf a) = rankOf lt l a := by
  have hsp : (sortBy le l).Perm l := sortBy_perm le l
  have hmem : a ∈ sortBy le l := hsp.mem_iff.mpr ha
  obtain ⟨⟨i, hi⟩, hget⟩ := List.mem_iff_get.mp hmem
  have hids' : ((sortBy le l).map idOf).Nodup := ((hsp.map idOf).nodup_iff).mpr hids
  have hlen : i < ((sortBy le l).map idOf).length := by simpa using hi
  have h1 : ((sortBy le l).map idOf).get ⟨i, hlen⟩ = idOf a := by
    simp only [List.get_eq_getElem, List.getElem_map]
    rw [show (sortBy le l)[i] = a from hget]
  have h2 := List.get_indexOf hids' ⟨i, hlen⟩
  rw [h1] at h2
  have h3 : rankOf lt l a = (sortBy le l).countP (fun b => lt b a) :=
    (hsp.countP_eq _).symm
  have h4 := countP_lt_sorted lt (strict_irrefl le lt htot hlt)
    (strict_asymm le lt hlt)
    (sortBy le l) (sortBy_pairwise_lt le lt htot htrans hlt l hc) i hi
  rw [hget] at h4
  rw [h2, h3, h4]

/-- Over a pairwise strictly comparable list, ranks are exactly
`{0, …, length − 1}`. -/
theorem rankOf_perm_range (le lt : α → α → Bool)
    (htot : ∀ a b, (le a b || le b a) = true)
    (htrans : ∀ a b c, le a b = true → le b c = true → le a c = true)
    (hlt : ∀ a b, lt a b = (le a b && !(le b a)))
    (l : List α) (hc : l.Pairwise (fun a b => lt a b = true ∨ lt b a = true)) :
    (l.map (rankOf lt l)).Perm (List.range l.length) := by
  have hsp : (sortBy le l).Perm l := sortBy_perm le l
  have hs := sortBy_pairwise_lt le lt htot htrans hlt l hc
  have hkey : (sortBy le l).map (rankOf lt l) = List.range (sortBy le l).length := by
    apply List.ext_getElem
    · simp
    · intro i h1 h2
      simp only [List.getElem_map, List.getElem_range]
      have hi : i < (sortBy le l).length := by simpa using h1
      have h4 := countP_lt_sorted lt (strict_irrefl le lt htot hlt)
        (strict_asymm le lt hlt) (sortBy le l) hs i hi
      have h5 : rankOf lt l ((sortBy le l).get ⟨i, hi⟩) =
          (sortBy le l).countP (fun b => lt b ((sortBy le l).get ⟨i, hi⟩)) :=
        (hsp.countP_eq _).symm
      simp only [List.get_eq_getElem] at h4 h5
      rw [h5, h4]
  have hp2 : (l.map (rankOf lt l)).Perm ((sortBy le l).map (rankOf lt l)) :=
    (hsp.map (rankOf lt l)).symm
  rw [hkey, hsp.length_eq] at hp2
  exact hp2

/-- If `a` strictly precedes `b`, everything strictly below `a` is strictly
below `b`, and `a` itself separates the two counts. -/
theorem countP_lt_of_lt (le lt : α → α → Bool)
    (htot : ∀ a b, (le a b || le b a) = true)
    (htrans : ∀ a b c, le a b = true → le b c = true → le a c = true)
    (hlt : ∀ a b, lt a b = (le a b && !(le b a)))
    (l : List α) (a : α) (ha : a ∈ l) (b : α) (hab : lt a b = true) :
    rankOf lt l a < rankOf lt l b := by
  have himp : ∀ x, lt x a = true → lt x b = true := by
    intro x hxa
    rw [hlt, Bool.and_eq_true] at hxa ⊢
    have hab' := hab
    rw [hlt, Bool.and_eq_true] at hab'
    refine ⟨htrans x a b hxa.1 hab'.1, ?_⟩
    simp only [Bool.not_eq_true'] at hxa hab' ⊢
    by_contra hbx
    rw [Bool.not_eq_false] at hbx
    have hba := htrans b x a hbx hxa.1
    simp [hba] at hab'
  obtain ⟨l1, l2, rfl⟩ := List.append_of_mem ha
  have h1 : List.countP (fun x => lt x a) l1 ≤ List.countP (fun x => lt x b) l1 :=
    List.countP_mono_left (fun x _ => himp x)
  have h2 : List.countP (fun x => lt x a) l2 ≤ List.countP (fun x => lt x b) l2 :=
    List.countP_mono_left (fun x _ => himp x)
  have haa : lt a a = false := strict_irrefl le lt htot hlt a
  unfold rankOf
  simp only [List.countP_append, List.countP_cons, haa, hab]
  norm_num
  omega

/-- Ranks are strictly monotone in the comparison, over a pairwise strictly
comparable list. -/
theorem rankOf_lt_iff (le lt : α → α → Bool)
    (htot : ∀ a b, (le a b || le b a) = true)
    (htrans : ∀ a b c, le a b = true → le b c = true → le a c = true)
    (hlt : ∀ a b, lt a b = (le a b && !(le b a)))
    (l : List α) (hc : l.Pairwise (fun a b => lt a b = true ∨ lt b a = true))
    (a : α) (ha : a ∈ l) (b : α) (hb : b ∈ l) :
    lt a b = true ↔ rankOf lt l a < rankOf lt l b := by
  constructor
  · exact countP_lt_of_lt le lt htot htrans hlt l a ha b
  · intro hr
    by_contra hab
    rw [Bool.not_eq_true] at hab
    rcases eq_or_ne a b with rfl | hne
    · omega
    · rcases hc.forall (fun {x y} h => h.symm) ha hb hne with h | h
      · rw [h] at hab; cases hab
      · have := countP_lt_of_lt le lt htot htrans hlt l b hb a h
        omega

/-! ## Instantiating the machinery for memberships and queue rows -/

/-- Strict `(position)` comparison on queue rows. -/
def posLt (a b : QueueItem) : Bool := decide (a.position < b.position)

theorem caOrderLe_total (a b : CollectionAlbum) :
    (caOrderLe a b || caOrderLe b a) = true := by
  simp only [caOrderLe, Bool.or_eq_true, Bool.and_eq_true, decide_eq_true_eq, beq_iff_eq]
  omega

theorem caOrderLe_trans (a b c : CollectionAlbum)
    (h1 : caOrderLe a b = true) (h2 : caOrderLe b c = true) : caOrderLe a c = true := by
  simp only [caOrderLe, Bool.or_eq_true, Bool.and_eq_true, decide_eq_true_eq,
    beq_iff_eq] at h1 h2 ⊢
  omega

theorem caOrder_strict (a b : CollectionAlbum) :
    caOrderLt a b = (caOrderLe a b && !(caOrderLe b a)) := by
  rw [Bool.eq_iff_iff]
  simp only [caOrderLt, caOrderLe, Bool.and_eq_true, Bool.or_eq_true, Bool.not_eq_true',
    Bool.or_eq_false_iff, Bool.and_eq_false_iff, decide_eq_true_eq, beq_iff_eq,
    decide_eq_false_iff_not, beq_eq_false_iff_ne, ne_eq]
  omega

theorem caOrder_cmp_of_ne (a b : CollectionAlbum) (h : a.id ≠ b.id) :
    caOrderLt a b = true ∨ caOrderLt b a = true := by
  simp only [caOrderLt, Bool.or_eq_true, Bool.and_eq_true, decide_eq_true_eq, beq_iff_eq]
  omega

theorem posLe_total (a b : QueueItem) : (posLe a b || posLe b a) = true := by
  simp only [posLe, Bool.or_eq_true, decide_eq_true_eq]
  omega

theorem posLe_trans (a b c : QueueItem)
    (h1 : posLe a b = true) (h2 : posLe b c = true) : posLe a c = true := by
  simp only [posLe, decide_eq_true_eq] at h1 h2 ⊢
  omega

theorem pos_strict (a b : QueueItem) : posLt a b = (posLe a b && !(posLe b a)) := by
  rw [Bool.eq_iff_iff]
  simp only [posLt, posLe, Bool.and_eq_true, Bool.not_eq_true', decide_eq_true_eq,
    decide_eq_false_iff_not]
  omega

theorem pos_cmp_of_ne (a b : QueueItem) (h : a.position ≠ b.position) :
    posLt a b = true ∨ posLt b a = true := by
  simp only [posLt, Bool.or_eq_true, decide_eq_true_eq]
  omega

/-- Filtering commutes with a conditional in-place update of the rows the
filter selects, when the update does not change selection. -/
theorem filter_map_ite (L : List α) (tgt : α → Bool) (f : α → α)
    (hf : ∀ x, tgt (f x) = tgt x) :
    (L.map (fun x => if tgt x then f x else x)).filter tgt = (L.filter tgt).map f := by
  induction L with
  | nil => rfl
  | cons x xs ih =>
    by_cases hx : tgt x
    · simp [List.filter_cons, hf, hx, ih]
    · simp [List.filter_cons, hx, ih]

/-- `updateFirst` leaves any projection untouched by the update unchanged. -/
theorem map_updateFirst (p : α → Bool) (f : α → α) (g : α → β)
    (h : ∀ x, g (f x) = g x) (l : List α) :
    (updateFirst p f l).map g = l.map g := by
  induction l with
  | nil => rfl
  | cons x xs ih =>
    by_cases hx : p x
    · simp [updateFirst, hx, h]
    · simp [updateFirst, hx, ih]

/-- Finding by the same predicate after `updateFirst`, when the update
preserves the predicate, yields the updated row. -/
theorem find?_updateFirst (p : α → Bool) (f : α → α)
    (hp : ∀ x, p (f x) = p x) (l : List α) :
    (updateFirst p f l).find? p = (l.find? p).map f := by
  induction l with
  | nil => rfl
  | cons x xs ih =>
    by_cases hx : p x
    · simp [updateFirst, hx, List.find?_cons_of_pos, hp, hx]
    · rw [updateFirst]
      simp only [hx, if_neg, Bool.false_eq_true, not_false_eq_true]
      rw [List.find?_cons_of_neg _ (by simp [hx]), List.find?_cons_of_neg _ (by simp [hx]), ih]

/-- In a list with pairwise distinct ids, finding a member by its id yields
that member. -/
theorem find?_id_of_nodup (idOf : α → Nat) (l : List α)
    (hids : (l.map idOf).Nodup) (a : α) (ha : a ∈ l) :
    l.find? (fun x => idOf x == idOf a) = some a := by
  induction l with
  | nil => cases ha
  | cons x xs ih =>
    rcases List.mem_cons.mp ha with rfl | hmem
    · exact List.find?_cons_of_pos _ (by simp)
    · rw [List.map_cons, List.nodup_cons] at hids
      have hne : idOf x ≠ idOf a := by
        intro he
        exact hids.1 (he ▸ List.mem_map_of_mem idOf hmem)
      rw [List.find?_cons_of_neg _ (by simp [hne])]
      exact ih hids.2 hmem

/-! ## The display-number invariant (claims C1, C10) -/

/-- The display-number invariant of one collection, exactly as the spec states
it: each membership's `display_number` is one more than the number of
memberships strictly before it in the `(sort_order, id)` order — i.e. display
numbers are `1..N` assigned in `(sort_order asc, id asc)` order. -/
def displayInvariant (db : DB) (collection_id : Nat) : Prop :=
  ∀ ca ∈ membersOf db collection_id,
    ca.display_number =
      Int.ofNat (rankOf caOrderLt (membersOf db collection_id) ca + 1)

/-- Density: the multiset of display numbers of one collection's memberships
is exactly `{1, …, N}`. -/
def displayDense (db : DB) (collection_id : Nat) : Prop :=
  ((membersOf db collection_id).map (fun ca => ca.display_number)).Perm
    ((List.range' 1 (membersOf db collection_id).length).map Int.ofNat)

theorem members_map_id_nodup (db : DB) (cid : Nat)
    (hids : (db.collection_albums.map (fun ca => ca.id)).Nodup) :
    ((membersOf db cid).map (fun ca => ca.id)).Nodup :=
  ((List.filter_sublist db.collection_albums).map (fun ca => ca.id)).nodup hids

theorem members_pairwise_cmp (db : DB) (cid : Nat)
    (hids : (db.collection_albums.map (fun ca => ca.id)).Nodup) :
    (membersOf db cid).Pairwise
      (fun a b => caOrderLt a b = true ∨ caOrderLt b a = true) := by
  have h1 : (membersOf db cid).Pairwise (fun a b => a.id ≠ b.id) :=
    List.pairwise_map.mp (members_map_id_nodup db cid hids)
  exact h1.imp (fun h => caOrder_cmp_of_ne _ _ h)

/-- The membership rows after a recalculation: every row of the collection gets
its sorted-position display number, rows of other collections are untouched. -/
theorem recalc_members (db : DB) (cid : Nat) :
    membersOf (recalculate_display_numbers db cid) cid =
      (membersOf db cid).map (fun ca =>
        { ca with display_number :=
            (Int.ofNat ((((sortBy caOrderLe (membersOf db cid)).map
              (fun cb => cb.id)).indexOf ca.id) + 1)) }) := by
  unfold recalculate_display_numbers membersOf
  exact filter_map_ite db.collection_albums _ _ (fun x => rfl)

/-- Ids of membership rows are unchanged by recalculation. -/
theorem recalc_ids (db : DB) (cid : Nat) :
    (recalculate_display_numbers db cid).collection_albums.map (fun ca => ca.id) =
      db.collection_albums.map (fun ca => ca.id) := by
  unfold recalculate_display_numbers
  simp only [List.map_map]
  apply List.map_congr_left
  intro ca _
  by_cases h : ca.collection_id = cid
  · simp [Function.comp, h]
  · simp [Function.comp, h]

/-- After `recalculate_display_numbers`, the collection satisfies the
display-number invariant (whatever it held before), provided membership row
ids are distinct. -/
theorem recalc_displayInvariant (db : DB) (cid : Nat)
    (hids : (db.collection_albums.map (fun ca => ca.id)).Nodup) :
    displayInvariant (recalculate_display_numbers db cid) cid := by
  have hmids := members_map_id_nodup db cid hids
  have hcomp := members_pairwise_cmp db cid hids
  intro ca' hca'
  rw [recalc_members] at hca'
  obtain ⟨ca, hca, rfl⟩ := List.mem_map.mp hca'
  have hidx := indexOf_sortBy_eq_rankOf caOrderLe caOrderLt (fun x => x.id)
    caOrderLe_total caOrderLe_trans caOrder_strict (membersOf db cid) hcomp hmids ca hca
  have hrank : rankOf caOrderLt (membersOf (recalculate_display_numbers db cid) cid)
      ({ ca with display_number :=
         (Int.ofNat ((((sortBy caOrderLe (membersOf db cid)).map
           (fun cb => cb.id)).indexOf ca.id) + 1)) }) =
      rankOf caOrderLt (membersOf db cid) ca := by
    rw [recalc_members]
    unfold rankOf
    rw [List.countP_map]
    rfl
  rw [hrank, hidx]

/-- The invariant implies density (given distinct membership row ids). -/
theorem displayInvariant_dense (db : DB) (cid : Nat)
    (hids : (db.collection_albums.map (fun ca => ca.id)).Nodup)
    (hinv : displayInvariant db cid) : displayDense db cid := by
  have hcomp := members_pairwise_cmp db cid hids
  have hperm := rankOf_perm_range caOrderLe caOrderLt caOrderLe_total caOrderLe_trans
    caOrder_strict (membersOf db cid) hcomp
  unfold displayDense
  have h1 : (membersOf db cid).map (fun ca => ca.display_number) =
      ((membersOf db cid).map (rankOf caOrderLt (membersOf db cid))).map
        (fun r => Int.ofNat (r + 1)) := by
    rw [List.map_map]
    exact List.map_congr_left (fun ca hca => hinv ca hca)
  rw [h1]
  have h2 : (List.range' 1 (membersOf db cid).length).map Int.ofNat =
      (List.range (membersOf db cid).length).map (fun r => Int.ofNat (r + 1)) := by
    rw [List.range'_eq_map_range, List.map_map]
    exact List.map_congr_left (fun r _ => by simp [Nat.add_comm])
  rw [h2]
  exact hperm.map _

instance (db : DB) (cid : Nat) : Decidable (displayInvariant db cid) := by
  unfold displayInvariant
  infer_instance

instance (db : DB) (cid : Nat) : Decidable (displayDense db cid) := by
  unfold displayDense
  exact List.decidablePerm _ _

/-- The four membership-mutating operations of claim C1, as one alternative. -/
inductive CollOp where
  | addAlbum (album_id : Nat) (sort_order : Option Int) (new_id : Nat)
  | removeAlbum (album_id : Nat)
  | setSortOrder (album_id : Nat) (new_sort_order : Int)
  | setFullOrder (album_ids : List Nat)
deriving DecidableEq

/-- Run one membership-mutating operation against the database. -/
def applyCollOp (db : DB) (cid : Nat) : CollOp → DB
  | CollOp.addAlbum aid so nid => (add_album_to_collection db cid aid so nid).1
  | CollOp.removeAlbum aid => (remove_album_from_collection db cid aid).1
  | CollOp.setSortOrder aid so => (update_album_sort_order db cid aid so).1
  | CollOp.setFullOrder ids => (set_collection_album_order db cid ids).1

/-- Freshness of the id a `CollOp.addAlbum` would give the inserted row (the
real system draws a fresh UUID). -/
def opFresh (db : DB) : CollOp → Prop
  | CollOp.addAlbum _ _ nid => ∀ ca ∈ db.collection_albums, ca.id ≠ nid
  | _ => True

instance (db : DB) (op : CollOp) : Decidable (opFresh db op) := by
  unfold opFresh
  cases op <;> infer_instance

/-- Membership row ids are unchanged by the sort-order assignment loop. -/
theorem assignSortOrders_ids (db : DB) (cid : Nat) (aids : List Nat) :
    (assignSortOrders db cid aids).collection_albums.map (fun ca => ca.id) =
      db.collection_albums.map (fun ca => ca.id) := by
  unfold assignSortOrders
  rw [List.map_map]
  apply List.map_congr_left
  intro ca _
  by_cases h : (ca.collection_id == cid && aids.contains ca.album_id) = true
  · rw [Function.comp_apply, if_pos h]
  · rw [Function.comp_apply, if_neg h]

/-- C1.  For every real collection, after any single operation among
`addAlbum`, `removeAlbum`, `setSortOrder` and `setFullOrder` (successful or
not — a failed operation leaves the rows unchanged), the collection's
memberships carry `display_number = 1..N` assigned in `(sort_order asc, id
asc)` order, and the multiset of display numbers is exactly `{1, …, N}`.
Hypotheses: membership row ids are pairwise distinct (primary key), the id a
successful insert would draw is fresh, and the invariant held beforehand (it
is needed only by the branches that do not touch the rows at all). -/
theorem C1_display_numbers_dense (db : DB) (cid : Nat) (op : CollOp)
    (hids : (db.collection_albums.map (fun ca => ca.id)).Nodup)
    (hfresh : opFresh db op)
    (hinv : displayInvariant db cid) :
    displayInvariant (applyCollOp db cid op) cid ∧
      displayDense (applyCollOp db cid op) cid := by
  have base : displayInvariant db cid ∧ displayDense db cid :=
    ⟨hinv, displayInvariant_dense db cid hids hinv⟩
  have recalcCase : ∀ db1 : DB,
      (db1.collection_albums.map (fun ca => ca.id)).Nodup →
      displayInvariant (recalculate_display_numbers db1 cid) cid ∧
        displayDense (recalculate_display_numbers db1 cid) cid := by
    intro db1 h1
    have hinv1 := recalc_displayInvariant db1 cid h1
    have hids1 : ((recalculate_display_numbers db1 cid).collection_albums.map
        (fun ca => ca.id)).Nodup := by
      rw [recalc_ids]; exact h1
    exact ⟨hinv1, displayInvariant_dense _ cid hids1 hinv1⟩
  cases op with
  | addAlbum aid so nid =>
    have hf : ∀ ca ∈ db.collection_albums, ca.id ≠ nid := hfresh
    have hext : ∀ x : CollectionAlbum, x.id = nid →
        ((db.collection_albums ++ [x]).map (fun ca => ca.id)).Nodup := by
      intro x hx
      rw [List.map_append, List.nodup_append]
      refine ⟨hids, List.nodup_singleton _, ?_⟩
      intro a ha hb
      obtain ⟨ca, hca, rfl⟩ := List.mem_map.mp ha
      have heq : ca.id = x.id := by simpa using hb
      exact hf ca hca (heq.trans hx)
    simp only [applyCollOp, add_album_to_collection]
    split
    · exact base
    · split
      · exact base
      · exact recalcCase _ (hext _ rfl)
  | removeAlbum aid =>
    simp only [applyCollOp, remove_album_from_collection]
    split
    · exact base
    · refine recalcCase _ ?_
      have hsub : (db.collection_albums.eraseP (fun ca =>
          ca.collection_id == cid && ca.album_id == aid)).Sublist db.collection_albums :=
        List.eraseP_sublist _
      exact (hsub.map (fun ca => ca.id)).nodup hids
  | setSortOrder aid so =>
    simp only [applyCollOp, update_album_sort_order]
    split
    · exact base
    · refine recalcCase _ ?_
      have := map_updateFirst
        (fun ca => ca.collection_id == cid && ca.album_id == aid)
        (fun ca => { ca with sort_order := so }) (fun ca => ca.id)
        (fun x => rfl) db.collection_albums
      simpa [this] using hids
  | setFullOrder ids =>
    simp only [applyCollOp, set_collection_album_order]
    split
    · exact base
    · split
      · exact base
      · refine recalcCase _ ?_
        rw [assignSortOrders_ids]
        exact hids

/-- A concrete run of `C1_display_numbers_dense`: adding album 2 to collection
10 of a two-album database. -/
theorem C1_display_numbers_dense_witness :
    ((⟨[], [⟨1, "a", "b", none, none, 0, false, false⟩,
        ⟨2, "c", "d", none, none, 0, false, false⟩], [],
      [⟨100, 10, 1, 1, 7, []⟩], [], []⟩ : DB).collection_albums.map
        (fun ca => ca.id)).Nodup ∧
    opFresh ⟨[], [⟨1, "a", "b", none, none, 0, false, false⟩,
        ⟨2, "c", "d", none, none, 0, false, false⟩], [],
      [⟨100, 10, 1, 1, 7, []⟩], [], []⟩ (CollOp.addAlbum 2 none 101) ∧
    displayInvariant ⟨[], [⟨1, "a", "b", none, none, 0, false, false⟩,
        ⟨2, "c", "d", none, none, 0, false, false⟩], [],
      [⟨100, 10, 1, 1, 7, []⟩], [], []⟩ 10 ∧
    (displayInvariant (applyCollOp ⟨[], [⟨1, "a", "b", none, none, 0, false, false⟩,
        ⟨2, "c", "d", none, none, 0, false, false⟩], [],
      [⟨100, 10, 1, 1, 7, []⟩], [], []⟩ 10 (CollOp.addAlbum 2 none 101)) 10 ∧
      displayDense (applyCollOp ⟨[], [⟨1, "a", "b", none, none, 0, false, false⟩,
        ⟨2, "c", "d", none, none, 0, false, false⟩], [],
      [⟨100, 10, 1, 1, 7, []⟩], [], []⟩ 10 (CollOp.addAlbum 2 none 101)) 10) :=
  ⟨by decide, by decide, by decide,
    C1_display_numbers_dense _ 10 (CollOp.addAlbum 2 none 101)
      (by decide) (by decide) (by decide)⟩

/-! ## Claim C4: enqueue dedup / idempotence -/

/-- C4.  Enqueueing a track that already has a pending or playing queue item
in the same collection is a no-op: the database is returned unchanged and the
call reports the already-queued outcome (`none`, the Python `None` return)
instead of raising; consequently enqueueing the same track twice in a row has
the same stored effect as enqueueing it once (unconditionally). -/
theorem C4_enqueue_dedup_idempotent (db : DB) (cid tid n1 n2 : Nat) :
    ((db.queue.find? (fun q => q.collection_id == cid && q.track_id == tid &&
        isPP q.status)).isSome = true → add_to_queue db cid tid n1 = (db, none)) ∧
    (add_to_queue (add_to_queue db cid tid n1).1 cid tid n2).1 =
      (add_to_queue db cid tid n1).1 := by
  constructor
  · intro h
    unfold add_to_queue
    cases hfind : db.queue.find? (fun q => q.collection_id == cid &&
        q.track_id == tid && isPP q.status) with
    | some x => rfl
    | none => rw [hfind] at h; simp at h
  · cases hfind : db.queue.find? (fun q => q.collection_id == cid &&
        q.track_id == tid && isPP q.status) with
    | some x =>
      simp [add_to_queue, hfind]
    | none =>
      unfold add_to_queue
      rw [hfind]
      simp only [List.find?_append, hfind, Option.none_or]
      rw [List.find?_cons_of_pos _ (by simp [isPP])]

/-- Concrete run of `C4_enqueue_dedup_idempotent`: track 21 is already pending
in collection 10, so a second enqueue returns `(db, none)`. -/
theorem C4_enqueue_dedup_idempotent_witness :
    (((⟨[], [], [], [], [⟨1, 10, 21, 1, QueueStatus.pending, none⟩], []⟩ : DB).queue.find?
        (fun q => q.collection_id == 10 && q.track_id == 21 && isPP q.status)).isSome
      = true) ∧
    add_to_queue ⟨[], [], [], [], [⟨1, 10, 21, 1, QueueStatus.pending, none⟩], []⟩ 10 21 50 =
      (⟨[], [], [], [], [⟨1, 10, 21, 1, QueueStatus.pending, none⟩], []⟩, none) :=
  ⟨by decide,
    (C4_enqueue_dedup_idempotent ⟨[], [], [], [], [⟨1, 10, 21, 1, QueueStatus.pending, none⟩],
      []⟩ 10 21 50 50).1 (by decide)⟩

/-! ## Claim C6: queue status transitions -/

/-- Counterexample to C6: `mark_playing` applied to a `played` item sets the
item back to `playing`; the played status is not terminal, contradicting the
claim that the status of a played item never changes again. -/
theorem C6_counterexample :
    (mark_playing ⟨[], [], [], [], [⟨1, 10, 21, 1, QueueStatus.played, none⟩], []⟩ 1).2 =
      some ⟨1, 10, 21, 1, QueueStatus.playing, none⟩ ∧
    (mark_playing ⟨[], [], [], [], [⟨1, 10, 21, 1, QueueStatus.played, none⟩], []⟩ 1).1.queue =
      [⟨1, 10, 21, 1, QueueStatus.playing, none⟩] := by
  constructor <;> decide

/-- C6 (amended).  `mark_playing` sets the status of any existing queue item
to `playing` unconditionally — whatever the current status, including
`played` — and `mark_played` likewise sets `played` (stamping `played_at`)
unconditionally.  The queue service itself enforces no transition direction;
other rows are untouched. -/
theorem C6_amended_unconditional_transitions (db : DB) (qid now : Nat) (q : QueueItem)
    (hfind : db.queue.find? (fun x => x.id == qid) = some q) :
    (mark_playing db qid).2 = some { q with status := QueueStatus.playing } ∧
    (mark_playing db qid).1.queue = updateFirst (fun x => x.id == qid)
      (fun x => { x with status := QueueStatus.playing }) db.queue ∧
    (mark_played db qid now).2 =
      some { q with status := QueueStatus.played, played_at := some now } ∧
    (mark_played db qid now).1.queue = updateFirst (fun x => x.id == qid)
      (fun x => { x with status := QueueStatus.played, played_at := some now }) db.queue := by
  have h1 := find?_updateFirst (fun x : QueueItem => x.id == qid)
    (fun x => { x with status := QueueStatus.playing }) (fun x => rfl) db.queue
  have h2 := find?_updateFirst (fun x : QueueItem => x.id == qid)
    (fun x => { x with status := QueueStatus.played, played_at := some now })
    (fun x => rfl) db.queue
  unfold mark_playing mark_played
  rw [hfind]
  rw [hfind] at h1 h2
  exact ⟨by simpa using h1, rfl, by simpa using h2, rfl⟩

/-- Concrete run of `C6_amended_unconditional_transitions` on a pending item. -/
theorem C6_amended_unconditional_transitions_witness :
    ((⟨[], [], [], [], [⟨1, 10, 21, 1, QueueStatus.pending, none⟩], []⟩ : DB).queue.find?
        (fun x => x.id == 1) = some ⟨1, 10, 21, 1, QueueStatus.pending, none⟩) ∧
    (mark_playing ⟨[], [], [], [], [⟨1, 10, 21, 1, QueueStatus.pending, none⟩], []⟩ 1).2 =
      some ⟨1, 10, 21, 1, QueueStatus.playing, none⟩ :=
  ⟨by decide,
    (C6_amended_unconditional_transitions
      ⟨[], [], [], [], [⟨1, 10, 21, 1, QueueStatus.pending, none⟩], []⟩ 1 5
      ⟨1, 10, 21, 1, QueueStatus.pending, none⟩ (by decide)).1⟩

/-! ## Claim C7: mixed partial section ranges -/

/-- The database and mixed section list used against claim C7: entry 0 carries
a range, entries 1 and 2 do not. -/
def dbC7 : DB := ⟨[⟨10, "slug", "name", true, false, none⟩], [], [], [], [], []⟩

/-- Mixed section input: one ranged entry among unranged ones. -/
def secsC7 : List SectionInput :=
  [⟨some 0, some "A", some "red", some 1, some 5⟩,
   ⟨some 1, some "B", some "blue", none, none⟩,
   ⟨some 2, some "C", some "green", none, none⟩]

/-- Counterexample to C7: a `setSections(enabled=true)` call in which one
entry carries `start_slot` but not all do is accepted — the sections are
stored and `sections_enabled` set — instead of being rejected with a
validation error and no mutation. -/
theorem C7_counterexample :
    (∃ s ∈ secsC7, s.start_slot.isSome = true) ∧
    (∃ s ∈ secsC7, s.start_slot = none) ∧
    update_collection_sections dbC7 10 true (some secsC7) =
      Except.ok ⟨[⟨10, "slug", "name", true, true, some secsC7⟩], [], [], [], [], []⟩ :=
  ⟨by decide, by decide, by rfl⟩

/-- The committed database of a successful enabling `setSections` call:
sections stored and `sections_enabled` set on the collection row. -/
def withSectionsSet (db : DB) (cid : Nat) (secs : List SectionInput) : DB :=
  let cols := updateFirst (fun x => x.id == cid)
    (fun x => { x with sections := some secs, sections_enabled := true })
    db.collections
  { db with collections := cols }

/-- An entry without `start_slot` makes the `has_ranges` loop answer false. -/
theorem hasRangesAux_false_of_none (l : List SectionInput) (s : SectionInput)
    (hs : s ∈ l) (hnone : s.start_slot = none) : hasRangesAux l = false := by
  induction l with
  | nil => cases hs
  | cons a rest ih =>
    cases rest with
    | nil =>
      have heq : s = a := by simpa using hs
      subst heq
      simp [hasRangesAux, hnone]
    | cons b r2 =>
      rcases List.mem_cons.mp hs with rfl | hmem
      · simp [hasRangesAux, hnone]
      · simp [hasRangesAux, ih hmem]

/-- C7 (amended).  A mixed partial range definition is not rejected: when
`enabled=true`, the entry count is 3–10 and the per-entry checks pass, but at
least one entry carries `start_slot` while another does not, the range
validation is skipped entirely (`has_ranges` is false) and the call succeeds,
storing the given sections and setting `sections_enabled`. -/
theorem C7_amended_mixed_ranges_accepted (db : DB) (cid : Nat) (c : Collection)
    (secs : List SectionInput)
    (hc : db.collections.find? (fun x => x.id == cid) = some c)
    (hlen3 : 3 ≤ secs.length) (hlen10 : secs.length ≤ 10)
    (hbasic : sectionsBasicCheck 0 [] secs = Except.ok ())
    (hsome : ∃ s ∈ secs, s.start_slot.isSome = true)
    (hnone : ∃ s ∈ secs, s.start_slot = none) :
    update_collection_sections db cid true (some secs) =
      Except.ok (withSectionsSet db cid secs) := by
  obtain ⟨s0, hs0, hs0none⟩ := hnone
  have hne : secs.isEmpty = false := by
    cases secs with
    | nil => cases hs0
    | cons a r => rfl
  have hranges : hasRanges secs = false := by
    unfold hasRanges
    rw [hne]
    simp only [Bool.false_eq_true, if_false]
    exact hasRangesAux_false_of_none _ s0 ((sortBy_perm _ _).mem_iff.mpr hs0) hs0none
  have hlf : (decide (secs.length < 3) || decide (secs.length > 10)) = false := by
    rw [Bool.or_eq_false_iff]
    constructor <;> simp <;> omega
  unfold update_collection_sections
  rw [hc]
  simp only [if_true, hne, Bool.false_eq_true, if_false, hlf, hbasic, hranges]
  rfl

/-- Concrete run of `C7_amended_mixed_ranges_accepted` on `dbC7`/`secsC7`. -/
theorem C7_amended_mixed_ranges_accepted_witness :
    (dbC7.collections.find? (fun x => x.id == 10) =
      some ⟨10, "slug", "name", true, false, none⟩) ∧
    update_collection_sections dbC7 10 true (some secsC7) =
      Except.ok (withSectionsSet dbC7 10 secsC7) :=
  ⟨by decide,
    C7_amended_mixed_ranges_accepted dbC7 10 ⟨10, "slug", "name", true, false, none⟩
      secsC7 (by decide) (by decide) (by decide) (by rfl)
      ⟨⟨some 0, some "A", some "red", some 1, some 5⟩, by decide, by decide⟩
      ⟨⟨some 1, some "B", some "blue", none, none⟩, by decide, by decide⟩⟩

/-! ## Claim C8: addAlbum existence checks -/

/-- Database used against claim C8: album 1 with tracks 7 and 8 exists, but no
collection row exists at all. -/
def dbC8 : DB := ⟨[], [⟨1, "t", "ar", none, none, 2, false, false⟩],
  [⟨7, 1, 1, 1, "x", "y", 0, true, false, false, none, none⟩,
   ⟨8, 1, 1, 2, "x", "y", 0, true, false, false, none, none⟩], [], [], []⟩

/-- Counterexample to C8: `addAlbum` with a nonexistent collection id does not
fail — the collection's existence is never checked — and a membership row is
created pointing at the nonexistent collection. -/
theorem C8_counterexample :
    dbC8.collections = [] ∧
    (add_album_to_collection dbC8 999 1 none 500).2 =
      some ⟨500, 999, 1, 1, 1, [7, 8]⟩ ∧
    (add_album_to_collection dbC8 999 1 none 500).1.collection_albums =
      [⟨500, 999, 1, 1, 1, [7, 8]⟩] := by
  refine ⟨rfl, ?_, ?_⟩ <;> decide

/-- Looking a row up by id after a recalculation finds the same row, with only
its display number rewritten. -/
theorem recalc_find_id (db : DB) (cid nid : Nat) :
    (recalculate_display_numbers db cid).collection_albums.find?
      (fun cb => cb.id == nid) =
    (db.collection_albums.find? (fun cb => cb.id == nid)).map (fun ca =>
      if ca.collection_id == cid then
        { ca with display_number := (Int.ofNat ((((sortBy caOrderLe
            (membersOf db cid)).map (fun cb => cb.id)).indexOf ca.id) + 1)) }
      else ca) := by
  unfold recalculate_display_numbers
  rw [List.find?_map]
  have hpg : ((fun cb : CollectionAlbum => cb.id == nid) ∘ (fun ca =>
      if ca.collection_id == cid then
        { ca with display_number := (Int.ofNat ((((sortBy caOrderLe
            (membersOf db cid)).map (fun cb => cb.id)).indexOf ca.id) + 1)) }
      else ca)) = (fun cb : CollectionAlbum => cb.id == nid) := by
    funext ca
    by_cases h : ca.collection_id = cid
    · simp [Function.comp, h]
    · simp [Function.comp, h]
  rw [hpg]

/-- C8 (amended).  With no existing membership: if the referenced album does
not exist the call fails (`none`) and creates nothing; the referenced
collection's existence is never checked — whenever the album exists, a
membership row is created (even for a nonexistent collection) with
`enabled_track_ids` equal to all current tracks of the album and `sort_order`
equal to the given value or `(current membership count of the collection) + 1`. -/
theorem C8_amended_album_checked_collection_not (db : DB) (cid aid : Nat)
    (so : Option Int) (nid : Nat)
    (hnomem : db.collection_albums.find? (fun ca =>
      ca.collection_id == cid && ca.album_id == aid) = none)
    (hfresh : ∀ ca ∈ db.collection_albums, ca.id ≠ nid) :
    (db.albums.find? (fun a => a.id == aid) = none →
      add_album_to_collection db cid aid so nid = (db, none)) ∧
    (∀ alb, db.albums.find? (fun a => a.id == aid) = some alb →
      ∃ ca, (add_album_to_collection db cid aid so nid).2 = some ca ∧
        ca.collection_id = cid ∧ ca.album_id = aid ∧
        ca.enabled_track_ids =
          (db.tracks.filter (fun t => t.album_id == aid)).map (fun t => t.id) ∧
        ca.sort_order = so.getD (Int.ofNat (db.collection_albums.countP
          (fun x => x.collection_id == cid)) + 1) ∧
        (add_album_to_collection db cid aid so nid).1.collection_albums.length =
          db.collection_albums.length + 1) := by
  constructor
  · intro halb
    unfold add_album_to_collection
    rw [hnomem, halb]
  · intro alb halb
    unfold add_album_to_collection
    rw [hnomem, halb]
    simp only
    set tids := (db.tracks.filter (fun t => t.album_id == aid)).map (fun t => t.id)
      with htids
    set soD := so.getD (Int.ofNat (db.collection_albums.countP
      (fun x => x.collection_id == cid)) + 1) with hsoD
    set newca : CollectionAlbum := ⟨nid, cid, aid, 0, soD, tids⟩ with hnewca
    set db1 : DB := { db with collection_albums := db.collection_albums ++ [newca] }
      with hdb1
    have hfind1 : db1.collection_albums.find? (fun cb => cb.id == nid) = some newca := by
      rw [hdb1]
      simp only [List.find?_append]
      have hnone : db.collection_albums.find? (fun cb => cb.id == nid) = none :=
        List.find?_eq_none.mpr (fun x hx => by simp [hfresh x hx])
      rw [hnone, Option.none_or]
      exact List.find?_cons_of_pos _ (by simp)
    have hfind2 := recalc_find_id db1 cid nid
    rw [hfind1] at hfind2
    have hcond : (newca.collection_id == cid) = true := by simp [hnewca]
    simp only [Option.map_some'] at hfind2
    rw [if_pos hcond] at hfind2
    refine ⟨_, hfind2, rfl, rfl, rfl, rfl, ?_⟩
    unfold recalculate_display_numbers
    simp [hdb1]

/-- Concrete run of `C8_amended_album_checked_collection_not` on `dbC8`. -/
theorem C8_amended_album_checked_collection_not_witness :
    (dbC8.collection_albums.find? (fun ca =>
      ca.collection_id == 999 && ca.album_id == 1) = none) ∧
    (∃ ca, (add_album_to_collection dbC8 999 1 none 500).2 = some ca ∧
      ca.collection_id = 999 ∧ ca.album_id = 1 ∧
      ca.enabled_track_ids =
        (dbC8.tracks.filter (fun t => t.album_id == 1)).map (fun t => t.id) ∧
      ca.sort_order = (none : Option Int).getD (Int.ofNat (dbC8.collection_albums.countP
        (fun x => x.collection_id == 999)) + 1) ∧
      (add_album_to_collection dbC8 999 1 none 500).1.collection_albums.length =
        dbC8.collection_albums.length + 1) :=
  ⟨by decide,
    (C8_amended_album_checked_collection_not dbC8 999 1 none 500 (by decide)
      (by decide)).2 ⟨1, "t", "ar", none, none, 2, false, false⟩ (by decide)⟩

/-! ## Claim C10: archived albums and the listing -/

/-- Database used for claim C10: collection 10 contains archived album 1
(ranked first) and non-archived album 2 (ranked second). -/
def dbC10 : DB := ⟨[⟨10, "s", "n", true, false, none⟩],
  [⟨1, "X", "Y", none, none, 0, false, true⟩,
   ⟨2, "Z", "W", none, none, 0, false, false⟩],
  [], [⟨100, 10, 1, 0, 0, []⟩, ⟨101, 10, 2, 0, 1, []⟩], [], []⟩

/-- C10.  Display-number recomputation numbers all memberships including those
of archived albums, while the listing skips archived albums yet returns the
stored display numbers unchanged: with archived album 1 ranked first, the
recomputed numbers are 1 and 2, the listing returns only album 2, and its
display numbers `[2]` are not the dense `{1}` over the single returned album. -/
theorem C10_archived_listing_not_dense :
    displayInvariant (recalculate_display_numbers dbC10 10) 10 ∧
    (membersOf (recalculate_display_numbers dbC10 10) 10).map
      (fun ca => (ca.album_id, ca.display_number)) = [(1, 1), (2, 2)] ∧
    (get_collection_albums (recalculate_display_numbers dbC10 10) 10).map
      (fun e => (e.id, e.display_number)) = [(2, 2)] ∧
    (get_collection_albums (recalculate_display_numbers dbC10 10) 10).map
      (fun e => e.display_number) ≠
      (List.range' 1 (get_collection_albums
        (recalculate_display_numbers dbC10 10) 10).length).map Int.ofNat := by
  refine ⟨?_, ?_, ?_, ?_⟩ <;> decide

/-! ## Claim C9: resuming playback is a pure is_playing flip -/

/-- The committed database of a resuming `play` call: only `is_playing` set on
the state row with the given id. -/
def withIsPlayingSet (db : DB) (sid : Nat) : DB :=
  let sts := updateFirst (fun s => s.id == sid)
    (fun s => { s with is_playing := true }) db.playback_states
  { db with playback_states := sts }

/-- C9.  When a collection's playback state exists and already has a current
track, `play` only sets `is_playing := true` on that state row:
`current_track_id`, `current_position_ms` and `volume` are unchanged, the
queue (and every other table) is untouched, and the updated state is
returned. -/
theorem C9_play_resume_frame (db : DB) (cid nid : Nat) (st : PlaybackState)
    (hst : get_playback_state db cid = some st) (t : Nat)
    (ht : st.current_track_id = some t) :
    (play db cid nid).2 = some { st with is_playing := true } ∧
    (play db cid nid).1.queue = db.queue ∧
    (play db cid nid).1.collection_albums = db.collection_albums ∧
    (play db cid nid).1.collections = db.collections ∧
    (play db cid nid).1.albums = db.albums ∧
    (play db cid nid).1.tracks = db.tracks ∧
    (play db cid nid).1.playback_states = updateFirst (fun s => s.id == st.id)
      (fun s => { s with is_playing := true }) db.playback_states ∧
    (play db cid nid).1.playback_states.map (fun s =>
        (s.id, s.collection_id, s.current_track_id, s.current_position_ms, s.volume)) =
      db.playback_states.map (fun s =>
        (s.id, s.collection_id, s.current_track_id, s.current_position_ms, s.volume)) := by
  have hplay : play db cid nid =
      (withIsPlayingSet db st.id, some { st with is_playing := true }) := by
    unfold play get_or_create_playback_state withIsPlayingSet
    rw [hst]
    simp only
    rw [ht]
  rw [hplay]
  refine ⟨rfl, rfl, rfl, rfl, rfl, rfl, rfl, ?_⟩
  exact map_updateFirst (fun s : PlaybackState => s.id == st.id)
    (fun s => { s with is_playing := true })
    (fun s => (s.id, s.collection_id, s.current_track_id, s.current_position_ms, s.volume))
    (fun x => rfl) db.playback_states

/-- Concrete run of `C9_play_resume_frame`: collection 10 has a paused state
with current track 7; `play` only flips `is_playing`. -/
theorem C9_play_resume_frame_witness :
    (get_playback_state ⟨[], [], [], [], [⟨1, 10, 21, 1, QueueStatus.pending, none⟩],
      [⟨1, 10, some 7, false, 500, 30⟩]⟩ 10 = some ⟨1, 10, some 7, false, 500, 30⟩) ∧
    (play ⟨[], [], [], [], [⟨1, 10, 21, 1, QueueStatus.pending, none⟩],
      [⟨1, 10, some 7, false, 500, 30⟩]⟩ 10 99).2 =
      some ⟨1, 10, some 7, true, 500, 30⟩ ∧
    (play ⟨[], [], [], [], [⟨1, 10, 21, 1, QueueStatus.pending, none⟩],
      [⟨1, 10, some 7, false, 500, 30⟩]⟩ 10 99).1.queue =
      [⟨1, 10, 21, 1, QueueStatus.pending, none⟩] :=
  ⟨by decide,
    (C9_play_resume_frame ⟨[], [], [], [], [⟨1, 10, 21, 1, QueueStatus.pending, none⟩],
      [⟨1, 10, some 7, false, 500, 30⟩]⟩ 10 99 ⟨1, 10, some 7, false, 500, 30⟩
      (by decide) 7 (by decide)).1,
    (C9_play_resume_frame ⟨[], [], [], [], [⟨1, 10, 21, 1, QueueStatus.pending, none⟩],
      [⟨1, 10, some 7, false, 500, 30⟩]⟩ 10 99 ⟨1, 10, some 7, false, 500, 30⟩
      (by decide) 7 (by decide)).2.1⟩

/-! ## Claim C2: reorder / setFullOrder set validation -/

/-- A list with a duplicate strictly shrinks under `dedup`. -/
theorem dedup_length_lt_of_not_nodup (l : List Nat) (h : ¬ l.Nodup) :
    l.dedup.length < l.length := by
  have hsub := l.dedup_sublist
  rcases Nat.lt_or_ge l.dedup.length l.length with hlt | hge
  · exact hlt
  · exfalso
    have hle := hsub.length_le
    have heq : l.dedup.length = l.length := Nat.le_antisymm hle hge
    have := hsub.eq_of_length heq
    exact h (this ▸ l.nodup_dedup)

/-- A duplicate-free list of keys all drawn from `ids` is shorter than `ids`
when `ids` itself has a duplicate. -/
theorem nodup_subset_length_lt_of_dup (K ids : List Nat)
    (hK : K.Nodup) (hsub : ∀ k ∈ K, k ∈ ids) (hids : ¬ ids.Nodup) :
    K.length < ids.length := by
  have h1 : K.Subperm ids.dedup :=
    hK.subperm (fun k hk => List.mem_dedup.mpr (hsub k hk))
  calc K.length ≤ ids.dedup.length := h1.length_le
    _ < ids.length := dedup_length_lt_of_not_nodup ids hids

/-- A duplicate-free list of keys all drawn from `ids` but missing some
element of `ids` is shorter than `ids`. -/
theorem nodup_subset_length_lt_of_missing (K ids : List Nat)
    (hK : K.Nodup) (hsub : ∀ k ∈ K, k ∈ ids)
    (i : Nat) (hi : i ∈ ids) (hmiss : i ∉ K) :
    K.length < ids.length := by
  have h1 : K.Subperm (ids.erase i) := by
    refine hK.subperm (fun k hk => ?_)
    have hne : k ≠ i := fun he => hmiss (he ▸ hk)
    exact (List.mem_erase_of_ne hne).mpr (hsub k hk)
  have h2 := h1.length_le
  have h3 : (ids.erase i).length = ids.length - 1 := List.length_erase_of_mem hi
  have h4 := List.length_pos_of_mem hi
  omega

/-- Two duplicate-free lists with the same members have the same length. -/
theorem nodup_subset_subset_length_eq (K ids : List Nat)
    (hK : K.Nodup) (hids : ids.Nodup)
    (h1 : ∀ k ∈ K, k ∈ ids) (h2 : ∀ i ∈ ids, i ∈ K) :
    K.length = ids.length :=
  ((hK.subperm h1).antisymm (hids.subperm h2)).length_eq

/-- A failing `reorder_queue` call leaves the database unchanged. -/
theorem reorder_queue_fail_unchanged (db : DB) (cid : Nat) (qids : List Nat)
    (h : (reorder_queue db cid qids).2 = false) :
    (reorder_queue db cid qids).1 = db := by
  simp only [reorder_queue] at h ⊢
  by_cases he : qids.isEmpty = true
  · rw [if_pos he]
  · rw [if_neg he] at h ⊢
    by_cases hlen : (((db.queue.filter (fun q => q.collection_id == cid &&
        qids.contains q.id && isPP q.status)).length != qids.length) = true)
    · rw [if_pos hlen]
    · rw [if_neg hlen] at h
      simp at h

/-- The pending/playing rows of the collection whose id is listed, i.e. the
`items` the validation counts. -/
theorem reorder_items_eq (db : DB) (cid : Nat) (qids : List Nat) :
    db.queue.filter (fun q => q.collection_id == cid && qids.contains q.id &&
      isPP q.status) = (ppItems db cid).filter (fun q => qids.contains q.id) := by
  unfold ppItems
  rw [List.filter_filter]
  exact List.filter_congr (fun q _ => by
    cases hc : q.collection_id == cid <;> cases hm : qids.contains q.id <;>
      cases hp : isPP q.status <;> rfl)

/-- A list with a duplicate, or with an id that is not a pending/playing row
of the collection, makes `reorder_queue` fail with no change. -/
theorem reorder_queue_fails_on_dup_or_unknown (db : DB) (cid : Nat) (qids : List Nat)
    (hqids : (db.queue.map (fun q => q.id)).Nodup)
    (hne : qids ≠ [])
    (hbad : ¬ qids.Nodup ∨ ∃ i ∈ qids, ∀ q ∈ ppItems db cid, q.id ≠ i) :
    reorder_queue db cid qids = (db, false) := by
  have he : qids.isEmpty = false := by
    cases qids with
    | nil => exact absurd rfl hne
    | cons a l => rfl
  set items := db.queue.filter (fun q => q.collection_id == cid &&
    qids.contains q.id && isPP q.status) with hitems
  have hKnodup : (items.map (fun q => q.id)).Nodup :=
    ((List.filter_sublist db.queue).map (fun q => q.id)).nodup hqids
  have hsub : ∀ k ∈ items.map (fun q => q.id), k ∈ qids := by
    intro k hk
    obtain ⟨q, hq, rfl⟩ := List.mem_map.mp hk
    have := (List.mem_filter.mp hq).2
    simp only [Bool.and_eq_true] at this
    exact List.mem_of_elem_eq_true this.1.2
  have hlt : items.length < qids.length := by
    rcases hbad with hdup | ⟨i, hi, hmiss⟩
    · have := nodup_subset_length_lt_of_dup _ qids hKnodup hsub hdup
      simpa using this
    · have hnotK : i ∉ items.map (fun q => q.id) := by
        intro hiK
        obtain ⟨q, hq, hqid⟩ := List.mem_map.mp hiK
        have hqm := List.mem_filter.mp hq
        have hcond := hqm.2
        simp only [Bool.and_eq_true] at hcond
        have hqpp : q ∈ ppItems db cid :=
          List.mem_filter.mpr ⟨hqm.1, by simp [hcond.1.1, hcond.2]⟩
        exact hmiss q hqpp hqid
      have := nodup_subset_length_lt_of_missing _ qids hKnodup hsub i hi hnotK
      simpa using this
  have hbne : ((items.length != qids.length) = true) := by
    simp only [bne_iff_ne, ne_eq]
    omega
  simp only [reorder_queue, he, Bool.false_eq_true, if_false, ← hitems, hbne, if_true]

/-- With a duplicate-free id list covering only valid pending/playing rows,
`reorder_queue` succeeds; every listed row's position becomes its 1-based list
index and every other row is untouched. -/
theorem reorder_queue_success (db : DB) (cid : Nat) (qids : List Nat)
    (hqids : (db.queue.map (fun q => q.id)).Nodup)
    (hnodup : qids.Nodup)
    (hvalid : ∀ i ∈ qids, ∃ q ∈ ppItems db cid, q.id = i) :
    (reorder_queue db cid qids).2 = true ∧
    (∀ q ∈ ppItems db cid, q.id ∈ qids →
      (reorder_queue db cid qids).1.queue.find? (fun x => x.id == q.id) =
        some { q with position := (Int.ofNat (qids.indexOf q.id + 1)) }) ∧
    (∀ q ∈ db.queue, ¬(q.collection_id = cid ∧ isPP q.status = true ∧ q.id ∈ qids) →
      (reorder_queue db cid qids).1.queue.find? (fun x => x.id == q.id) = some q) := by
  have hfind : ∀ q ∈ db.queue,
      db.queue.find? (fun x => x.id == q.id) = some q := by
    intro q hq
    exact find?_id_of_nodup (fun x => x.id) db.queue hqids q hq
  by_cases he : qids.isEmpty = true
  · have hqnil : qids = [] := by
      cases qids with
      | nil => rfl
      | cons a l => simp at he
    subst hqnil
    refine ⟨rfl, ?_, ?_⟩
    · intro q _ hq
      simp at hq
    · intro q hq _
      exact hfind q hq
  · set items := db.queue.filter (fun q => q.collection_id == cid &&
      qids.contains q.id && isPP q.status) with hitems
    have hKnodup : (items.map (fun q => q.id)).Nodup :=
      ((List.filter_sublist db.queue).map (fun q => q.id)).nodup hqids
    have hsub : ∀ k ∈ items.map (fun q => q.id), k ∈ qids := by
      intro k hk
      obtain ⟨q, hq, rfl⟩ := List.mem_map.mp hk
      have := (List.mem_filter.mp hq).2
      simp only [Bool.and_eq_true] at this
      exact List.mem_of_elem_eq_true this.1.2
    have hsup : ∀ i ∈ qids, i ∈ items.map (fun q => q.id) := by
      intro i hi
      obtain ⟨q, hq, rfl⟩ := hvalid i hi
      have hqm := List.mem_filter.mp hq
      have hcond := hqm.2
      simp only [Bool.and_eq_true] at hcond
      refine List.mem_map.mpr ⟨q, ?_, rfl⟩
      refine List.mem_filter.mpr ⟨hqm.1, ?_⟩
      simp only [Bool.and_eq_true]
      exact ⟨⟨hcond.1, by simpa using hi⟩, hcond.2⟩
    have hlen : items.length = qids.length := by
      have := nodup_subset_subset_length_eq _ qids hKnodup hnodup hsub hsup
      simpa using this
    have hbne : ((items.length != qids.length) = false) := by
      simp [bne_iff_ne, hlen]
    have hres : reorder_queue db cid qids =
        ({ db with queue := db.queue.map (fun q =>
            if q.collection_id == cid && qids.contains q.id && isPP q.status then
              { q with position := (Int.ofNat (qids.indexOf q.id + 1)) }
            else q) }, true) := by
      simp only [reorder_queue, he, Bool.false_eq_true, if_false, ← hitems, hbne]
    rw [hres]
    have hpg : ∀ q : QueueItem, (fun x : QueueItem => x.id == q.id) ∘ (fun x =>
        if x.collection_id == cid && qids.contains x.id && isPP x.status then
          { x with position := (Int.ofNat (qids.indexOf x.id + 1)) }
        else x) = (fun x : QueueItem => x.id == q.id) := by
      intro q
      funext x
      by_cases hx : (x.collection_id == cid && qids.contains x.id && isPP x.status) = true
      · rw [Function.comp_apply, if_pos hx]
      · rw [Function.comp_apply, if_neg hx]
    refine ⟨rfl, ?_, ?_⟩
    · intro q hq hmem
      have hqm := List.mem_filter.mp hq
      have hcond := hqm.2
      simp only [Bool.and_eq_true] at hcond
      have hcondq : (q.collection_id == cid && qids.contains q.id && isPP q.status)
          = true := by
        simp only [Bool.and_eq_true]
        exact ⟨⟨hcond.1, by simpa using hmem⟩, hcond.2⟩
      simp only [List.find?_map, hpg q, hfind q hqm.1, Option.map_some']
      rw [if_pos hcondq]
    · intro q hq hnot
      have hcondq : (q.collection_id == cid && qids.contains q.id && isPP q.status)
          = false := by
        rw [Bool.eq_false_iff]
        intro hc
        simp only [Bool.and_eq_true] at hc
        exact hnot ⟨by simpa using hc.1.1, hc.2, by simpa using hc.1.2⟩
      have hcnot : ¬((q.collection_id == cid && qids.contains q.id && isPP q.status)
          = true) := by
        rw [hcondq]
        simp
      simp only [List.find?_map, hpg q, hfind q hq, Option.map_some']
      rw [if_neg hcnot]

/-- A failing `set_collection_album_order` call leaves the database unchanged. -/
theorem set_order_fail_unchanged (db : DB) (cid : Nat) (aids : List Nat)
    (h : (set_collection_album_order db cid aids).2 = false) :
    (set_collection_album_order db cid aids).1 = db := by
  simp only [set_collection_album_order] at h ⊢
  by_cases he : aids.isEmpty = true
  · rw [if_pos he]
  · rw [if_neg he] at h ⊢
    by_cases hlen : (((((db.collection_albums.filter (fun ca =>
        ca.collection_id == cid && aids.contains ca.album_id)).map
          (fun ca => ca.album_id)).dedup).length != aids.length) = true)
    · rw [if_pos hlen]
    · rw [if_neg hlen] at h
      simp at h

/-- The matched membership rows of `set_collection_album_order` are the
collection's members whose album is listed. -/
theorem set_order_matched_eq (db : DB) (cid : Nat) (aids : List Nat) :
    db.collection_albums.filter (fun ca =>
      ca.collection_id == cid && aids.contains ca.album_id) =
    (membersOf db cid).filter (fun ca => aids.contains ca.album_id) := by
  unfold membersOf
  rw [List.filter_filter]
  exact List.filter_congr (fun ca _ => by
    cases hc : ca.collection_id == cid <;> cases hm : aids.contains ca.album_id <;> rfl)

/-- A list with a duplicate, or naming an album that is not a member of the
collection, makes `set_collection_album_order` fail with no change. -/
theorem set_order_fails_on_dup_or_unknown (db : DB) (cid : Nat) (aids : List Nat)
    (halb : ((membersOf db cid).map (fun ca => ca.album_id)).Nodup)
    (hne : aids ≠ [])
    (hbad : ¬ aids.Nodup ∨ ∃ i ∈ aids, ∀ ca ∈ membersOf db cid, ca.album_id ≠ i) :
    set_collection_album_order db cid aids = (db, false) := by
  have he : aids.isEmpty = false := by
    cases aids with
    | nil => exact absurd rfl hne
    | cons a l => rfl
  set matched := db.collection_albums.filter (fun ca =>
    ca.collection_id == cid && aids.contains ca.album_id) with hmatched
  have hmnodup : (matched.map (fun ca => ca.album_id)).Nodup := by
    rw [hmatched, set_order_matched_eq]
    exact ((List.filter_sublist (membersOf db cid)).map (fun ca => ca.album_id)).nodup halb
  have hded : (matched.map (fun ca => ca.album_id)).dedup =
      matched.map (fun ca => ca.album_id) := List.dedup_eq_self.mpr hmnodup
  have hsub : ∀ k ∈ matched.map (fun ca => ca.album_id), k ∈ aids := by
    intro k hk
    obtain ⟨ca, hca, rfl⟩ := List.mem_map.mp hk
    have := (List.mem_filter.mp hca).2
    simp only [Bool.and_eq_true] at this
    exact List.mem_of_elem_eq_true this.2
  have hlt : (matched.map (fun ca => ca.album_id)).length < aids.length := by
    rcases hbad with hdup | ⟨i, hi, hmiss⟩
    · exact nodup_subset_length_lt_of_dup _ aids hmnodup hsub hdup
    · have hnotK : i ∉ matched.map (fun ca => ca.album_id) := by
        intro hiK
        obtain ⟨ca, hca, hcaid⟩ := List.mem_map.mp hiK
        have hcam : ca ∈ membersOf db cid := by
          rw [hmatched, set_order_matched_eq] at hca
          exact (List.mem_filter.mp hca).1
        exact hmiss ca hcam hcaid
      exact nodup_subset_length_lt_of_missing _ aids hmnodup hsub i hi hnotK
  have hbne : ((((matched.map (fun ca => ca.album_id)).dedup).length != aids.length)
      = true) := by
    rw [hded]
    simp only [bne_iff_ne, ne_eq]
    omega
  simp only [set_collection_album_order, he, Bool.false_eq_true, if_false, ← hmatched,
    hbne, if_true]

/-- Row lookup by id after the sort-order assignment loop. -/
theorem assignSortOrders_find (db : DB) (cid : Nat) (aids : List Nat)
    (hcids : (db.collection_albums.map (fun ca => ca.id)).Nodup)
    (ca : CollectionAlbum) (hca : ca ∈ db.collection_albums) :
    (assignSortOrders db cid aids).collection_albums.find? (fun x => x.id == ca.id) =
      some (if (ca.collection_id == cid && aids.contains ca.album_id) = true then
        { ca with sort_order := (Int.ofNat (aids.indexOf ca.album_id)) } else ca) := by
  unfold assignSortOrders
  rw [List.find?_map]
  have hpg : ((fun x : CollectionAlbum => x.id == ca.id) ∘ (fun x =>
      if x.collection_id == cid && aids.contains x.album_id then
        { x with sort_order := (Int.ofNat (aids.indexOf x.album_id)) }
      else x)) = (fun x : CollectionAlbum => x.id == ca.id) := by
    funext x
    by_cases hx : (x.collection_id == cid && aids.contains x.album_id) = true
    · rw [Function.comp_apply, if_pos hx]
    · rw [Function.comp_apply, if_neg hx]
  rw [hpg, find?_id_of_nodup (fun x => x.id) db.collection_albums hcids ca hca,
    Option.map_some']

/-- With a duplicate-free album list covering only members of the collection,
`set_collection_album_order` succeeds; every listed membership's `sort_order`
becomes its 0-based list index and every other row keeps its `sort_order`
(display numbers are then recomputed). -/
theorem set_order_success (db : DB) (cid : Nat) (aids : List Nat)
    (hcids : (db.collection_albums.map (fun ca => ca.id)).Nodup)
    (halb : ((membersOf db cid).map (fun ca => ca.album_id)).Nodup)
    (hnodup : aids.Nodup)
    (hvalid : ∀ i ∈ aids, ∃ ca ∈ membersOf db cid, ca.album_id = i) :
    (set_collection_album_order db cid aids).2 = true ∧
    (∀ ca ∈ membersOf db cid, ca.album_id ∈ aids →
      ∃ row, (set_collection_album_order db cid aids).1.collection_albums.find?
          (fun x => x.id == ca.id) = some row ∧
        row.sort_order = (Int.ofNat (aids.indexOf ca.album_id)) ∧
        row.collection_id = ca.collection_id ∧ row.album_id = ca.album_id ∧
        row.enabled_track_ids = ca.enabled_track_ids) ∧
    (∀ ca ∈ db.collection_albums, ¬(ca.collection_id = cid ∧ ca.album_id ∈ aids) →
      ∃ row, (set_collection_album_order db cid aids).1.collection_albums.find?
          (fun x => x.id == ca.id) = some row ∧
        row.sort_order = ca.sort_order ∧
        row.collection_id = ca.collection_id ∧ row.album_id = ca.album_id ∧
        row.enabled_track_ids = ca.enabled_track_ids) := by
  by_cases he : aids.isEmpty = true
  · have hanil : aids = [] := by
      cases aids with
      | nil => rfl
      | cons a l => simp at he
    subst hanil
    refine ⟨rfl, ?_, ?_⟩
    · intro ca _ hmem
      simp at hmem
    · intro ca hca _
      exact ⟨ca, find?_id_of_nodup (fun x => x.id) db.collection_albums hcids ca hca,
        rfl, rfl, rfl, rfl⟩
  · set matched := db.collection_albums.filter (fun ca =>
      ca.collection_id == cid && aids.contains ca.album_id) with hmatched
    have hmnodup : (matched.map (fun ca => ca.album_id)).Nodup := by
      rw [hmatched, set_order_matched_eq]
      exact ((List.filter_sublist (membersOf db cid)).map
        (fun ca => ca.album_id)).nodup halb
    have hded : (matched.map (fun ca => ca.album_id)).dedup =
        matched.map (fun ca => ca.album_id) := List.dedup_eq_self.mpr hmnodup
    have hsub : ∀ k ∈ matched.map (fun ca => ca.album_id), k ∈ aids := by
      intro k hk
      obtain ⟨ca, hca, rfl⟩ := List.mem_map.mp hk
      have := (List.mem_filter.mp hca).2
      simp only [Bool.and_eq_true] at this
      exact List.mem_of_elem_eq_true this.2
    have hsup : ∀ i ∈ aids, i ∈ matched.map (fun ca => ca.album_id) := by
      intro i hi
      obtain ⟨ca, hca, rfl⟩ := hvalid i hi
      have hcam := List.mem_filter.mp hca
      refine List.mem_map.mpr ⟨ca, ?_, rfl⟩
      rw [hmatched, set_order_matched_eq]
      refine List.mem_filter.mpr ⟨hca, by simpa using hi⟩
    have hlen : (matched.map (fun ca => ca.album_id)).length = aids.length :=
      nodup_subset_subset_length_eq _ aids hmnodup hnodup hsub hsup
    have hbne : ((((matched.map (fun ca => ca.album_id)).dedup).length != aids.length)
        = false) := by
      rw [hded]
      simp [bne_iff_ne, hlen]
    have hres : set_collection_album_order db cid aids =
        (recalculate_display_numbers (assignSortOrders db cid aids) cid, true) := by
      simp only [set_collection_album_order, he, Bool.false_eq_true, if_false,
        ← hmatched, hbne, if_true]
    rw [hres]
    have hfind : ∀ ca ∈ db.collection_albums, ∀ so2 : Int,
        (recalculate_display_numbers (assignSortOrders db cid aids) cid).collection_albums.find?
            (fun x => x.id == ca.id) =
          (some (if (ca.collection_id == cid && aids.contains ca.album_id) = true then
            { ca with sort_order := (Int.ofNat (aids.indexOf ca.album_id)) } else ca)).map
            (fun cb =>
              if cb.collection_id == cid then
                { cb with display_number := (Int.ofNat ((((sortBy caOrderLe
                    (membersOf (assignSortOrders db cid aids) cid)).map
                      (fun x => x.id)).indexOf cb.id) + 1)) }
              else cb) := by
      intro ca hca _
      rw [recalc_find_id, assignSortOrders_find db cid aids hcids ca hca]
    refine ⟨rfl, ?_, ?_⟩
    · intro ca hca hmem
      have hcam := List.mem_filter.mp hca
      have hcond : (ca.collection_id == cid && aids.contains ca.album_id) = true := by
        simp only [Bool.and_eq_true]
        exact ⟨hcam.2, by simpa using hmem⟩
      have h1 := hfind ca hcam.1 0
      rw [if_pos hcond, Option.map_some'] at h1
      by_cases hd : (({ ca with sort_order := (Int.ofNat (aids.indexOf ca.album_id)) }
          : CollectionAlbum).collection_id == cid) = true
      · rw [if_pos hd] at h1
        exact ⟨_, h1, rfl, rfl, rfl, rfl⟩
      · rw [if_neg hd] at h1
        exact ⟨_, h1, rfl, rfl, rfl, rfl⟩
    · intro ca hca hnot
      have hcond : (ca.collection_id == cid && aids.contains ca.album_id) = false := by
        rw [Bool.eq_false_iff]
        intro hc
        simp only [Bool.and_eq_true] at hc
        exact hnot ⟨by simpa using hc.1, List.mem_of_elem_eq_true hc.2⟩
      have hcnot : ¬((ca.collection_id == cid && aids.contains ca.album_id) = true) := by
        rw [hcond]
        simp
      have h1 := hfind ca hca 0
      rw [if_neg hcnot, Option.map_some'] at h1
      by_cases hd : (ca.collection_id == cid) = true
      · rw [if_pos hd] at h1
        exact ⟨_, h1, rfl, rfl, rfl, rfl⟩
      · rw [if_neg hd] at h1
        exact ⟨_, h1, rfl, rfl, rfl, rfl⟩

/-- Database used against claim C2: two pending queue items (ids 1 and 2) in
collection 10; item 1 sits at position 2 and item 2 at position 1. -/
def dbC2 : DB := ⟨[], [], [], [],
  [⟨1, 10, 21, 2, QueueStatus.pending, none⟩,
   ⟨2, 10, 22, 1, QueueStatus.pending, none⟩], []⟩

/-- Counterexample to C2: the pending set is `{1, 2}` but `reorder` with the
proper subset `[1]` succeeds and mutates the stored state (item 1 moves to
position 1, leaving two items at position 1) instead of failing unchanged. -/
theorem C2_counterexample :
    (ppItems dbC2 10).map (fun q => q.id) = [1, 2] ∧
    (reorder_queue dbC2 10 [1]).2 = true ∧
    (reorder_queue dbC2 10 [1]).1.queue =
      [⟨1, 10, 21, 1, QueueStatus.pending, none⟩,
       ⟨2, 10, 22, 1, QueueStatus.pending, none⟩] := by
  refine ⟨?_, ?_, ?_⟩ <;> decide

/-- C2 (amended).  For both `reorder` (queue) and `setFullOrder` (collection
albums): an empty list always succeeds with no change; every failing call
leaves the stored state unchanged; a list with a duplicate or with an id
outside the target set fails with no change; but omissions are NOT detected —
any duplicate-free list of valid target ids (including a proper subset)
succeeds, assigning `position = 1-based index` (resp. `sort_order = 0-based
index`, followed by a display-number recompute) to the listed rows and leaving
the unlisted rows' positions (resp. sort orders) unchanged. -/
theorem C2_amended_subset_reorder (db : DB) (cid : Nat) (qids aids : List Nat)
    (hqids : (db.queue.map (fun q => q.id)).Nodup)
    (hcids : (db.collection_albums.map (fun ca => ca.id)).Nodup)
    (halb : ((membersOf db cid).map (fun ca => ca.album_id)).Nodup) :
    (reorder_queue db cid [] = (db, true)) ∧
    ((reorder_queue db cid qids).2 = false → (reorder_queue db cid qids).1 = db) ∧
    (qids ≠ [] → (¬ qids.Nodup ∨ ∃ i ∈ qids, ∀ q ∈ ppItems db cid, q.id ≠ i) →
      reorder_queue db cid qids = (db, false)) ∧
    (qids.Nodup → (∀ i ∈ qids, ∃ q ∈ ppItems db cid, q.id = i) →
      (reorder_queue db cid qids).2 = true ∧
      (∀ q ∈ ppItems db cid, q.id ∈ qids →
        (reorder_queue db cid qids).1.queue.find? (fun x => x.id == q.id) =
          some { q with position := (Int.ofNat (qids.indexOf q.id + 1)) }) ∧
      (∀ q ∈ db.queue, ¬(q.collection_id = cid ∧ isPP q.status = true ∧ q.id ∈ qids) →
        (reorder_queue db cid qids).1.queue.find? (fun x => x.id == q.id) = some q)) ∧
    (set_collection_album_order db cid [] = (db, true)) ∧
    ((set_collection_album_order db cid aids).2 = false →
      (set_collection_album_order db cid aids).1 = db) ∧
    (aids ≠ [] → (¬ aids.Nodup ∨ ∃ i ∈ aids, ∀ ca ∈ membersOf db cid, ca.album_id ≠ i) →
      set_collection_album_order db cid aids = (db, false)) ∧
    (aids.Nodup → (∀ i ∈ aids, ∃ ca ∈ membersOf db cid, ca.album_id = i) →
      (set_collection_album_order db cid aids).2 = true ∧
      (∀ ca ∈ membersOf db cid, ca.album_id ∈ aids →
        ∃ row, (set_collection_album_order db cid aids).1.collection_albums.find?
            (fun x => x.id == ca.id) = some row ∧
          row.sort_order = (Int.ofNat (aids.indexOf ca.album_id)) ∧
          row.collection_id = ca.collection_id ∧ row.album_id = ca.album_id ∧
          row.enabled_track_ids = ca.enabled_track_ids) ∧
      (∀ ca ∈ db.collection_albums, ¬(ca.collection_id = cid ∧ ca.album_id ∈ aids) →
        ∃ row, (set_collection_album_order db cid aids).1.collection_albums.find?
            (fun x => x.id == ca.id) = some row ∧
          row.sort_order = ca.sort_order ∧
          row.collection_id = ca.collection_id ∧ row.album_id = ca.album_id ∧
          row.enabled_track_ids = ca.enabled_track_ids)) :=
  ⟨rfl,
   reorder_queue_fail_unchanged db cid qids,
   reorder_queue_fails_on_dup_or_unknown db cid qids hqids,
   fun hn hv => reorder_queue_success db cid qids hqids hn hv,
   rfl,
   set_order_fail_unchanged db cid aids,
   set_order_fails_on_dup_or_unknown db cid aids halb,
   fun hn hv => set_order_success db cid aids hcids halb hn hv⟩

/-- Concrete run of `C2_amended_subset_reorder`: with pending ids `{1, 2}` and
membership albums `{5, 6}` in collection 10, the full lists `[2, 1]` succeed. -/
theorem C2_amended_subset_reorder_witness :
    (((⟨[], [], [], [⟨100, 10, 5, 1, 0, []⟩, ⟨101, 10, 6, 2, 1, []⟩],
        [⟨1, 10, 21, 1, QueueStatus.pending, none⟩,
         ⟨2, 10, 22, 2, QueueStatus.pending, none⟩], []⟩ : DB).queue.map
      (fun q => q.id)).Nodup) ∧
    (reorder_queue ⟨[], [], [], [⟨100, 10, 5, 1, 0, []⟩, ⟨101, 10, 6, 2, 1, []⟩],
        [⟨1, 10, 21, 1, QueueStatus.pending, none⟩,
         ⟨2, 10, 22, 2, QueueStatus.pending, none⟩], []⟩ 10 [2, 1]).2 = true ∧
    (set_collection_album_order ⟨[], [], [],
        [⟨100, 10, 5, 1, 0, []⟩, ⟨101, 10, 6, 2, 1, []⟩],
        [⟨1, 10, 21, 1, QueueStatus.pending, none⟩,
         ⟨2, 10, 22, 2, QueueStatus.pending, none⟩], []⟩ 10 [6, 5]).2 = true :=
  ⟨by decide,
   ((C2_amended_subset_reorder ⟨[], [], [],
        [⟨100, 10, 5, 1, 0, []⟩, ⟨101, 10, 6, 2, 1, []⟩],
        [⟨1, 10, 21, 1, QueueStatus.pending, none⟩,
         ⟨2, 10, 22, 2, QueueStatus.pending, none⟩], []⟩ 10 [2, 1] [6, 5]
      (by decide) (by decide) (by decide)).2.2.2.1 (by decide) (by decide)).1,
   ((C2_amended_subset_reorder ⟨[], [], [],
        [⟨100, 10, 5, 1, 0, []⟩, ⟨101, 10, 6, 2, 1, []⟩],
        [⟨1, 10, 21, 1, QueueStatus.pending, none⟩,
         ⟨2, 10, 22, 2, QueueStatus.pending, none⟩], []⟩ 10 [2, 1] [6, 5]
      (by decide) (by decide) (by decide)).2.2.2.2.2.2.2 (by decide)
        (by decide)).1⟩

/-! ## Claim C3: removal renumbers densely, preserving order -/

/-- The stored position of the queue row with the given id (0 when absent). -/
def posOf (db : DB) (queue_id : Nat) : Int :=
  ((db.queue.find? (fun q => q.id == queue_id)).map (fun q => q.position)).getD 0

/-- C3.  After `remove(queueId)` deletes an existing queue item, the remaining
pending/playing items of that collection carry positions exactly `{1, …, M}`,
and two survivors compare by their new positions exactly as they compared by
their old ones (relative order preserved).  Hypotheses: queue row ids are
pairwise distinct (primary key) and the collection's pending/playing positions
were pairwise distinct beforehand. -/
theorem C3_remove_renumbers_dense (db : DB) (qid : Nat) (item : QueueItem)
    (hfind : db.queue.find? (fun q => q.id == qid) = some item)
    (hqids : (db.queue.map (fun q => q.id)).Nodup)
    (hpos : ((ppItems db item.collection_id).map (fun q => q.position)).Nodup) :
    ((ppItems (remove_from_queue db qid).1 item.collection_id).map
        (fun q => q.position)).Perm
      ((List.range' 1 (ppItems (remove_from_queue db qid).1
        item.collection_id).length).map Int.ofNat) ∧
    (∀ a ∈ ppItems db item.collection_id, ∀ b ∈ ppItems db item.collection_id,
      a.id ≠ qid → b.id ≠ qid →
      (a.position < b.position ↔
        posOf (remove_from_queue db qid).1 a.id <
          posOf (remove_from_queue db qid).1 b.id)) := by
  set cid := item.collection_id with hcid
  have hres : (remove_from_queue db qid).1 =
      reorder_queue_positions
        { db with queue := db.queue.eraseP (fun q => q.id == qid) } cid := by
    unfold remove_from_queue
    rw [hfind]
  set db1 : DB := { db with queue := db.queue.eraseP (fun q => q.id == qid) }
    with hdb1
  have herased : db1.queue.Sublist db.queue := List.eraseP_sublist _
  have hsurv : (ppItems db1 cid).Sublist (ppItems db cid) :=
    herased.filter _
  have hpos1 : ((ppItems db1 cid).map (fun q => q.position)).Nodup :=
    (hsurv.map (fun q => q.position)).nodup hpos
  have hids1 : ((ppItems db1 cid).map (fun q => q.id)).Nodup :=
    (((List.filter_sublist db1.queue).trans herased).map (fun q => q.id)).nodup hqids
  have hcomp : (ppItems db1 cid).Pairwise
      (fun a b => posLt a b = true ∨ posLt b a = true) :=
    (List.pairwise_map.mp hpos1).imp (fun h => pos_cmp_of_ne _ _ h)
  have hpp' : ppItems (reorder_queue_positions db1 cid) cid =
      (ppItems db1 cid).map (fun q =>
        { q with position := (Int.ofNat ((((sortBy posLe (ppItems db1 cid)).map
            (fun x => x.id)).indexOf q.id) + 1)) }) := by
    unfold reorder_queue_positions ppItems
    exact filter_map_ite db1.queue _ _ (fun x => rfl)
  have hrank : ∀ q ∈ ppItems db1 cid,
      (((sortBy posLe (ppItems db1 cid)).map (fun x => x.id)).indexOf q.id) =
        rankOf posLt (ppItems db1 cid) q :=
    fun q hq => indexOf_sortBy_eq_rankOf posLe posLt (fun x => x.id)
      posLe_total posLe_trans pos_strict (ppItems db1 cid) hcomp hids1 q hq
  constructor
  · rw [hres, hpp']
    rw [List.map_map, List.length_map]
    have h1 : (ppItems db1 cid).map ((fun q : QueueItem => q.position) ∘ (fun q =>
        { q with position := (Int.ofNat ((((sortBy posLe (ppItems db1 cid)).map
            (fun x => x.id)).indexOf q.id) + 1)) })) =
        ((ppItems db1 cid).map (rankOf posLt (ppItems db1 cid))).map
          (fun r => Int.ofNat (r + 1)) := by
      rw [List.map_map]
      exact List.map_congr_left (fun q hq => by
        simp only [Function.comp_apply]
        rw [hrank q hq])
    rw [h1]
    have hperm := rankOf_perm_range posLe posLt posLe_total posLe_trans pos_strict
      (ppItems db1 cid) hcomp
    have h2 : (List.range' 1 (ppItems db1 cid).length).map Int.ofNat =
        (List.range (ppItems db1 cid).length).map (fun r => Int.ofNat (r + 1)) := by
      rw [List.range'_eq_map_range, List.map_map]
      exact List.map_congr_left (fun r _ => by simp [Nat.add_comm])
    rw [h2]
    exact hperm.map _
  · intro a ha b hb hna hnb
    have hmem : ∀ x ∈ ppItems db cid, x.id ≠ qid → x ∈ ppItems db1 cid := by
      intro x hx hnx
      have hxm := List.mem_filter.mp hx
      refine List.mem_filter.mpr ⟨?_, hxm.2⟩
      show x ∈ db.queue.eraseP (fun q => q.id == qid)
      exact (List.mem_eraseP_of_neg (by simp [hnx])).mpr hxm.1
    have ha1 := hmem a ha hna
    have hb1 := hmem b hb hnb
    have hposOf : ∀ x ∈ ppItems db1 cid,
        posOf (reorder_queue_positions db1 cid) x.id =
          Int.ofNat (rankOf posLt (ppItems db1 cid) x + 1) := by
      intro x hx
      have hxq : x ∈ db1.queue := (List.mem_filter.mp hx).1
      have hxt := (List.mem_filter.mp hx).2
      unfold posOf reorder_queue_positions
      have hpg : ((fun q : QueueItem => q.id == x.id) ∘ (fun q =>
          if q.collection_id == cid && isPP q.status then
            { q with position := (Int.ofNat ((((sortBy posLe (ppItems db1 cid)).map
              (fun y => y.id)).indexOf q.id) + 1)) }
          else q)) = (fun q : QueueItem => q.id == x.id) := by
        funext q
        by_cases hq : (q.collection_id == cid && isPP q.status) = true
        · rw [Function.comp_apply, if_pos hq]
        · rw [Function.comp_apply, if_neg hq]
      have hids2 : (db1.queue.map (fun q => q.id)).Nodup :=
        (herased.map (fun q => q.id)).nodup hqids
      simp only [List.find?_map, hpg,
        find?_id_of_nodup (fun q => q.id) db1.queue hids2 x hxq, Option.map_some']
      rw [if_pos hxt]
      simp only [Option.getD_some, Option.map_some']
      rw [hrank x hx]
    rw [hres, hposOf a ha1, hposOf b hb1]
    have hiff := rankOf_lt_iff posLe posLt posLe_total posLe_trans pos_strict
      (ppItems db1 cid) hcomp a ha1 b hb1
    constructor
    · intro hab
      have h1 : posLt a b = true := by simp [posLt, hab]
      have h3 := hiff.mp h1
      exact Int.ofNat_lt.mpr (by omega)
    · intro hab
      have h2 : rankOf posLt (ppItems db1 cid) a < rankOf posLt (ppItems db1 cid) b := by
        have := Int.ofNat_lt.mp hab
        omega
      have := hiff.mpr h2
      simp only [posLt, decide_eq_true_eq] at this
      exact this

/-- Concrete run of `C3_remove_renumbers_dense`: removing the middle pending
item of a three-item queue leaves positions `{1, 2}`. -/
theorem C3_remove_renumbers_dense_witness :
    ((⟨[], [], [], [], [⟨1, 10, 21, 1, QueueStatus.playing, none⟩,
        ⟨2, 10, 22, 2, QueueStatus.pending, none⟩,
        ⟨3, 10, 23, 3, QueueStatus.pending, none⟩], []⟩ : DB).queue.find?
      (fun q => q.id == 2) = some ⟨2, 10, 22, 2, QueueStatus.pending, none⟩) ∧
    ((ppItems (remove_from_queue ⟨[], [], [], [],
        [⟨1, 10, 21, 1, QueueStatus.playing, none⟩,
         ⟨2, 10, 22, 2, QueueStatus.pending, none⟩,
         ⟨3, 10, 23, 3, QueueStatus.pending, none⟩], []⟩ 2).1 10).map
      (fun q => q.position)).Perm
      ((List.range' 1 (ppItems (remove_from_queue ⟨[], [], [], [],
        [⟨1, 10, 21, 1, QueueStatus.playing, none⟩,
         ⟨2, 10, 22, 2, QueueStatus.pending, none⟩,
         ⟨3, 10, 23, 3, QueueStatus.pending, none⟩], []⟩ 2).1 10).length).map
        Int.ofNat) :=
  ⟨by decide,
    (C3_remove_renumbers_dense ⟨[], [], [], [],
      [⟨1, 10, 21, 1, QueueStatus.playing, none⟩,
       ⟨2, 10, 22, 2, QueueStatus.pending, none⟩,
       ⟨3, 10, 23, 3, QueueStatus.pending, none⟩], []⟩ 2
      ⟨2, 10, 22, 2, QueueStatus.pending, none⟩ (by decide) (by decide)
      (by decide)).1⟩

/-! ## Claim C5: crossfade suppression -/

/-- The spec-side condition under which the crossfade is suppressed: a next
track is resolvable, the playback state has a current track whose record
shares the next track's album, and the next track is the immediate successor
of the current one in that album's `(disc_number, track_number)`-ordered
(enabled, non-archived) track list. -/
def consecutiveAlbumStep (db : DB) (cid : Nat) (nq : QueueItem) : Prop :=
  ∃ nt, get_track_by_id db nq.track_id = some nt ∧
  ∃ st, get_playback_state db cid = some st ∧
  ∃ ctid, st.current_track_id = some ctid ∧
  ∃ ct, get_track_by_id db ctid = some ct ∧
    ct.album_id = nt.album_id ∧
    ∃ i, (get_tracks_by_album db ct.album_id).get? i = some ct ∧
      (get_tracks_by_album db ct.album_id).get? (i + 1) = some nt

/-- C5.  With no pending queue item, `get_next_transition` returns
`(none, none, false)`; with a pending item, it returns `applyCrossfade = false`
exactly when the transition is an uninterrupted same-album successor step
(`consecutiveAlbumStep`): in every other situation — unresolvable next track,
no playback state, no current track, unresolvable current track, different
albums, current track absent from the album list, or a non-consecutive jump —
it returns `applyCrossfade = true`.  Hypothesis: track ids are pairwise
distinct (primary key). -/
theorem C5_crossfade_only_on_consecutive (db : DB) (cid : Nat)
    (htids : (db.tracks.map (fun t => t.id)).Nodup) :
    (get_next_track db cid = none → get_next_transition db cid = (none, none, false)) ∧
    (∀ nq, get_next_track db cid = some nq →
      ((get_next_transition db cid).2.2 = false ↔ consecutiveAlbumStep db cid nq)) := by
  have htrackEq : ∀ x ∈ db.tracks, ∀ y ∈ db.tracks, x.id = y.id → x = y :=
    fun x hx y hy h => List.inj_on_of_nodup_map htids hx hy h
  have hbyid : ∀ (i : Nat) (t : Track), get_track_by_id db i = some t →
      t ∈ db.tracks ∧ t.id = i := by
    intro i t h
    refine ⟨List.mem_of_find?_eq_some h, ?_⟩
    have := List.find?_some h
    simpa using this
  constructor
  · intro h
    unfold get_next_transition
    rw [h]
  · intro nq hnq
    have hlsub : ∀ (aid : Nat), ∀ t ∈ get_tracks_by_album db aid, t ∈ db.tracks := by
      intro aid t ht
      have := (sortBy_perm trackOrderLe _).mem_iff.mp ht
      exact (List.mem_filter.mp this).1
    have hlids : ∀ (aid : Nat),
        ((get_tracks_by_album db aid).map (fun t => t.id)).Nodup := by
      intro aid
      have hperm := (sortBy_perm trackOrderLe (db.tracks.filter (fun t =>
        t.album_id == aid && (!true || (t.enabled && !t.archived))))).map
        (fun t => t.id)
      have hsubl : ((db.tracks.filter (fun t =>
          t.album_id == aid && (!true || (t.enabled && !t.archived)))).map
          (fun t => t.id)).Nodup :=
        ((List.filter_sublist db.tracks).map (fun t => t.id)).nodup htids
      exact (hperm.nodup_iff).mpr hsubl
    cases hnt : get_track_by_id db nq.track_id with
    | none =>
      have hres : (get_next_transition db cid).2.2 = true := by
        simp [get_next_transition, hnq, hnt]
      refine iff_of_false (by rw [hres]; decide) ?_
      rintro ⟨nt, hnt', -⟩
      rw [hnt] at hnt'
      cases hnt'
    | some nt =>
      cases hst : get_playback_state db cid with
      | none =>
        have hres : (get_next_transition db cid).2.2 = true := by
          simp [get_next_transition, hnq, hnt, hst]
        refine iff_of_false (by rw [hres]; decide) ?_
        rintro ⟨nt', hnt', st, hst', -⟩
        rw [hst] at hst'
        cases hst'
      | some st =>
        cases hcur : st.current_track_id with
        | none =>
          have hres : (get_next_transition db cid).2.2 = true := by
            simp [get_next_transition, hnq, hnt, hst, hcur]
          refine iff_of_false (by rw [hres]; decide) ?_
          rintro ⟨nt', hnt', st', hst', ctid, hcur', -⟩
          rw [hst] at hst'
          obtain rfl := Option.some.inj hst'
          rw [hcur] at hcur'
          cases hcur'
        | some ctid =>
          cases hct : get_track_by_id db ctid with
          | none =>
            have hres : (get_next_transition db cid).2.2 = true := by
              simp [get_next_transition, hnq, hnt, hst, hcur, hct]
            refine iff_of_false (by rw [hres]; decide) ?_
            rintro ⟨nt', hnt', st', hst', ctid', hcur', ct, hct', -⟩
            rw [hst] at hst'
            obtain rfl := Option.some.inj hst'
            rw [hcur] at hcur'
            obtain rfl := Option.some.inj hcur'
            rw [hct] at hct'
            cases hct'
          | some ct =>
            by_cases halb : ct.album_id = nt.album_id
            case neg =>
              have hres : (get_next_transition db cid).2.2 = true := by
                simp [get_next_transition, hnq, hnt, hst, hcur, hct, halb]
              refine iff_of_false (by rw [hres]; decide) ?_
              rintro ⟨nt', hnt', st', hst', ctid', hcur', ct', hct', halb', -⟩
              rw [hnt] at hnt'
              obtain rfl := Option.some.inj hnt'
              rw [hst] at hst'
              obtain rfl := Option.some.inj hst'
              rw [hcur] at hcur'
              obtain rfl := Option.some.inj hcur'
              rw [hct] at hct'
              obtain rfl := Option.some.inj hct'
              exact absurd halb' halb
            case pos =>
              cases hidx : (get_tracks_by_album db nt.album_id).findIdx?
                  (fun t => t.id == ct.id) with
              | none =>
                have hres : (get_next_transition db cid).2.2 = true := by
                  simp [get_next_transition, hnq, hnt, hst, hcur, hct, halb, hidx]
                refine iff_of_false (by rw [hres]; decide) ?_
                rintro ⟨nt', hnt', st', hst', ctid', hcur', ct', hct', -, i, hgi, -⟩
                rw [hnt] at hnt'
                obtain rfl := Option.some.inj hnt'
                rw [hst] at hst'
                obtain rfl := Option.some.inj hst'
                rw [hcur] at hcur'
                obtain rfl := Option.some.inj hcur'
                rw [hct] at hct'
                obtain rfl := Option.some.inj hct'
                rw [List.findIdx?_eq_none_iff] at hidx
                have hctmem : ct ∈ get_tracks_by_album db nt.album_id := by
                  obtain ⟨h1, h2⟩ := List.get?_eq_some.mp hgi
                  have hm : (get_tracks_by_album db ct.album_id).get ⟨i, h1⟩ ∈
                      get_tracks_by_album db ct.album_id :=
                    (get_tracks_by_album db ct.album_id).get_mem _ _
                  rw [h2, halb] at hm
                  exact hm
                have := hidx ct hctmem
                simp at this
              | some ci =>
                obtain ⟨hcilt, hpci, -⟩ := List.findIdx?_eq_some_iff_getElem.mp hidx
                have hcieq : (get_tracks_by_album db nt.album_id)[ci] = ct := by
                  refine htrackEq _ (hlsub nt.album_id _ (List.getElem_mem hcilt)) ct
                    (hbyid ctid ct hct).1 ?_
                  simpa using hpci
                have hidxuniq : ∀ i, (get_tracks_by_album db nt.album_id).get? i =
                    some ct → i = ci := by
                  intro i hgi
                  obtain ⟨hilt, hieq⟩ := List.get?_eq_some.mp hgi
                  have hgg : (get_tracks_by_album db nt.album_id).get ⟨i, hilt⟩ =
                      (get_tracks_by_album db nt.album_id).get ⟨ci, hcilt⟩ := by
                    simp only [List.get_eq_getElem]
                    rw [hcieq]
                    exact hieq
                  have hnd : (get_tracks_by_album db nt.album_id).Nodup :=
                    (List.pairwise_map.mp (hlids nt.album_id)).imp (fun h => by
                      intro he
                      exact h (congrArg (fun t => t.id) he))
                  have := (hnd.get_inj_iff).mp hgg
                  exact congrArg Fin.val this
                cases hg2 : (get_tracks_by_album db nt.album_id)[ci + 1]? with
                | none =>
                  have hres : (get_next_transition db cid).2.2 = true := by
                    simp [get_next_transition, hnq, hnt, hst, hcur, hct, halb, hidx,
                      hg2]
                  refine iff_of_false (by rw [hres]; decide) ?_
                  rintro ⟨nt', hnt', st', hst', ctid', hcur', ct', hct', -, i, hgi, hgi1⟩
                  rw [hnt] at hnt'
                  obtain rfl := Option.some.inj hnt'
                  rw [hst] at hst'
                  obtain rfl := Option.some.inj hst'
                  rw [hcur] at hcur'
                  obtain rfl := Option.some.inj hcur'
                  rw [hct] at hct'
                  obtain rfl := Option.some.inj hct'
                  rw [halb] at hgi hgi1
                  have := hidxuniq i hgi
                  subst this
                  rw [List.get?_eq_getElem?, hg2] at hgi1
                  cases hgi1
                | some t2 =>
                  by_cases ht2 : t2.id = nt.id
                  case neg =>
                    have hres : (get_next_transition db cid).2.2 = true := by
                      simp [get_next_transition, hnq, hnt, hst, hcur, hct, halb, hidx,
                        hg2, ht2]
                    refine iff_of_false (by rw [hres]; decide) ?_
                    rintro ⟨nt', hnt', st', hst', ctid', hcur', ct', hct', -, i, hgi,
                      hgi1⟩
                    rw [hnt] at hnt'
                    obtain rfl := Option.some.inj hnt'
                    rw [hst] at hst'
                    obtain rfl := Option.some.inj hst'
                    rw [hcur] at hcur'
                    obtain rfl := Option.some.inj hcur'
                    rw [hct] at hct'
                    obtain rfl := Option.some.inj hct'
                    rw [halb] at hgi hgi1
                    have := hidxuniq i hgi
                    subst this
                    rw [List.get?_eq_getElem?, hg2] at hgi1
                    obtain rfl := Option.some.inj hgi1
                    exact absurd rfl ht2
                  case pos =>
                    have hres : (get_next_transition db cid).2.2 = false := by
                      simp [get_next_transition, hnq, hnt, hst, hcur, hct, halb, hidx,
                        hg2, ht2]
                    refine iff_of_true (by rw [hres]) ?_
                    refine ⟨nt, hnt, st, hst, ctid, hcur, ct, hct, halb, ci, ?_, ?_⟩
                    · rw [halb, List.get?_eq_some]
                      exact ⟨hcilt, by simpa using hcieq⟩
                    · have ht2m : t2 ∈ get_tracks_by_album db nt.album_id := by
                        obtain ⟨h1, h2⟩ := List.getElem?_eq_some_iff.mp hg2
                        exact h2 ▸ (List.getElem_mem h1)
                      have heq2 : t2 = nt :=
                        htrackEq t2 (hlsub nt.album_id t2 ht2m) nt
                          (hbyid nq.track_id nt hnt).1 ht2
                      rw [halb, List.get?_eq_getElem?, hg2, heq2]

/-- Database for the C5 witness: album 1 with consecutive tracks 7 and 8,
track 8 queued next, track 7 currently playing. -/
def dbC5 : DB := ⟨[⟨10, "s", "n", true, false, none⟩],
  [⟨1, "t", "ar", none, none, 2, false, false⟩],
  [⟨7, 1, 1, 1, "x", "y", 0, true, false, false, some 3, none⟩,
   ⟨8, 1, 1, 2, "x", "y", 0, true, false, false, none, some 5⟩],
  [], [⟨1, 10, 8, 1, QueueStatus.pending, none⟩], [⟨1, 10, some 7, true, 0, 70⟩]⟩

/-- Concrete run of `C5_crossfade_only_on_consecutive` on `dbC5`. -/
theorem C5_crossfade_only_on_consecutive_witness :
    ((dbC5.tracks.map (fun t => t.id)).Nodup) ∧
    (get_next_track dbC5 10 = some ⟨1, 10, 8, 1, QueueStatus.pending, none⟩) ∧
    ((get_next_transition dbC5 10).2.2 = false ↔
      consecutiveAlbumStep dbC5 10 ⟨1, 10, 8, 1, QueueStatus.pending, none⟩) :=
  ⟨by decide, by decide,
    (C5_crossfade_only_on_consecutive dbC5 10 (by decide)).2
      ⟨1, 10, 8, 1, QueueStatus.pending, none⟩ (by decide)⟩
